import Mathlib

/-!
Verification of the python_parser hierarchy builder.

This file gives a shallow embedding of the core of the repository —
the enum and identity layer (src/models/enums.py,
src/id_generation/id_generation_strategies.py), the visitor manager
(src/visitors/visitor_manager.py), the pydantic model/builder layer
(src/models/models.py, src/model_builders/...), comment extraction
(src/visitors/node_processing/common_functions.py), standalone-block
gathering (src/visitors/node_processing/standalone_code_block_functions.py),
the import processing (src/visitors/module_visitor.py), and the recursive
visitor traversal (src/visitors/module_visitor.py, class_def_visitor.py,
function_def_visitor.py, base_code_block_visitor.py,
src/parsers/python_parser.py) — and proves or refutes the specification
claims about it.

Modelling conventions: Python str is String; Python dict/set state is
passed explicitly as association lists (insertion order preserved, as in
CPython); raising is Except; the libcst CST is modelled by small inductive
types carrying exactly the structure the embedded functions consume.  The
libcst visitor protocol (visit_X called for every node of type X in the
visited subtree, depth first, then children, then leave_X) is modelled
explicitly in the traversal functions.  Attribute extraction that the
verified claims never mention (docstrings, decorators, positions, raw
source) is omitted from the visitor state; the identity / parent / kind /
children bookkeeping is complete.
-/

/-- BlockType (src/models/enums.py): enum of code block types, in
declaration order. -/
inductive BlockType where
  | STANDALONE_CODE_BLOCK
  | IMPORT_BLOCK
  | CLASS
  | FUNCTION
  | MODULE
deriving DecidableEq, Repr

/-- BlockType.__str__ returns self.value (src/models/enums.py). -/
def BlockType.value : BlockType → String
  | .STANDALONE_CODE_BLOCK => "STANDALONE_BLOCK"
  | .IMPORT_BLOCK => "IMPORT_BLOCK"
  | .CLASS => "CLASS"
  | .FUNCTION => "FUNCTION"
  | .MODULE => "MODULE"

/-- ImportModuleType (src/models/enums.py). -/
inductive ImportModuleType where
  | STANDARD_LIBRARY
  | LOCAL
  | THIRD_PARTY
deriving DecidableEq, Repr

/-- CommentType (src/models/enums.py): the fixed vocabulary of important
comment tags, in declaration order. -/
inductive CommentType where
  | TODO
  | FIXME
  | NOTE
  | HACK
  | XXX
  | REVIEW
  | OPTIMIZE
  | CHANGED
  | QUESTION
  | Q
  | DEPRECATED
  | NOSONAR
  | TODO_FIXME
deriving DecidableEq, Repr

/-- CommentType member values (src/models/enums.py). -/
def CommentType.value : CommentType → String
  | .TODO => "TODO"
  | .FIXME => "FIXME"
  | .NOTE => "NOTE"
  | .HACK => "HACK"
  | .XXX => "XXX"
  | .REVIEW => "REVIEW"
  | .OPTIMIZE => "OPTIMIZE"
  | .CHANGED => "CHANGED"
  | .QUESTION => "QUESTION"
  | .Q => "Q"
  | .DEPRECATED => "@deprecated"
  | .NOSONAR => "NOSONAR"
  | .TODO_FIXME => "TODO-FIXME"

/-- Iteration order of the CommentType enum: Python iterates enum members
in declaration order, which is what `next((ct for ct in CommentType ...))`
relies on. -/
def commentTypeList : List CommentType :=
  [.TODO, .FIXME, .NOTE, .HACK, .XXX, .REVIEW, .OPTIMIZE, .CHANGED,
   .QUESTION, .Q, .DEPRECATED, .NOSONAR, .TODO_FIXME]

/-- ClassType (src/models/enums.py). -/
inductive ClassType where
  | STANDARD
  | ABSTRACT
  | INTERFACE
  | MIXIN
  | SINGLETON
  | FACTORY
  | BUILDER
  | PROTOTYPE
  | ADAPTER
  | DECORATOR
  | FACADE
  | PROXY
  | COMPOSITE
  | COMMAND
  | OBSERVER
  | STRATEGY
  | STATE
  | TEMPLATE
  | VISITOR
deriving DecidableEq, Repr

/-- ModuleIDGenerationStrategy.generate_id
(src/id_generation/id_generation_strategies.py). -/
def ModuleIDGenerationStrategy.generate_id (file_path : String) : String :=
  file_path ++ "__>__MODULE"

/-- ClassIDGenerationStrategy.generate_id
(src/id_generation/id_generation_strategies.py). -/
def ClassIDGenerationStrategy.generate_id (parent_id : String) (class_name : String) : String :=
  parent_id ++ "__>__CLASS_" ++ class_name

/-- FunctionIDGenerationStrategy.generate_id
(src/id_generation/id_generation_strategies.py). -/
def FunctionIDGenerationStrategy.generate_id (parent_id : String) (function_name : String) :
    String :=
  parent_id ++ "__>__FUNCTION_" ++ function_name

/-- StandaloneCodeBlockIDGenerationStrategy.generate_id
(src/id_generation/id_generation_strategies.py); the count is interpolated
with an f-string, i.e. its decimal representation. -/
def StandaloneCodeBlockIDGenerationStrategy.generate_id (parent_id : String) (count : Nat) :
    String :=
  parent_id ++ "__>__STANDALONE_CODE_BLOCK_" ++ Nat.repr count

/-- Python substring containment: needle in hay on str. -/
def strContains (hay needle : String) : Bool :=
  decide (needle.data <:+: hay.data)

/-- State of the VisitorManager singleton instance
(src/visitors/visitor_manager.py): processed_nodes is a dict mapping a
module id to the set of processed node ids; modelled as an association
list of lists, preserving insertion order as CPython dicts do. -/
structure VisitorManagerState where
  processed_nodes : List (String × List String)
deriving DecidableEq, Repr

/-- Dictionary lookup on the processed_nodes association list. -/
def lookupScope : List (String × List String) → String → Option (List String)
  | [], _ => none
  | (k, v) :: rest, s => if k = s then some v else lookupScope rest s

/-- Add node_id to the set stored under module_id (set.add on
processed_nodes of the module). -/
def insertNode : List (String × List String) → String → String → List (String × List String)
  | [], m, n => [(m, [n])]
  | (k, v) :: rest, m, n =>
    if k = m then (k, v ++ [n]) :: rest else (k, v) :: insertNode rest m n

/-- VisitorManager.has_been_processed (src/visitors/visitor_manager.py):
if module_id is not yet a key, an empty set is stored for it; then, if
node_id is in that set the call returns True, otherwise node_id is added
and the call returns False.  Returns the result together with the updated
manager state. -/
def VisitorManager.has_been_processed (vm : VisitorManagerState) (module_id node_id : String) :
    Bool × VisitorManagerState :=
  let table : List (String × List String) :=
    match lookupScope vm.processed_nodes module_id with
    | none => vm.processed_nodes ++ [(module_id, [])]
    | some _ => vm.processed_nodes
  match lookupScope table module_id with
  | some s =>
    if node_id ∈ s then (true, ⟨table⟩) else (false, ⟨insertNode table module_id node_id⟩)
  | none => (false, ⟨table⟩)

/-- The set of node ids recorded for module_id. -/
def vmScope (vm : VisitorManagerState) (module_id : String) : List String :=
  (lookupScope vm.processed_nodes module_id).getD []

/-- Run a sequence of has_been_processed calls, threading the state. -/
def runCalls (vm : VisitorManagerState) : List (String × String) → VisitorManagerState
  | [] => vm
  | (m, n) :: rest => runCalls (VisitorManager.has_been_processed vm m n).2 rest

/-- Class-level state of the VisitorManager class
(src/visitors/visitor_manager.py): _instance is a class attribute, None
until get_instance stores an instance in it.  Object identity is
abstracted by a Nat tag; next_tag supplies fresh tags for newly
constructed objects (a new object always differs from every existing
one). -/
structure SingletonClassState where
  _instance : Option Nat
  next_tag : Nat
deriving DecidableEq, Repr

/-- VisitorManager.__init__ (src/visitors/visitor_manager.py): raises
RuntimeError if the class attribute _instance is already set (truthy);
otherwise yields a fresh object with empty processed state.  Note that
__init__ itself does not store the new object in _instance. -/
def VisitorManager.init (g : SingletonClassState) : Except String (Nat × SingletonClassState) :=
  match g._instance with
  | some _ => .error "VisitorManager instance already exists."
  | none => .ok (g.next_tag, { g with next_tag := g.next_tag + 1 })

/-- VisitorManager.get_instance (src/visitors/visitor_manager.py): if
_instance is not set, construct an instance (the constructor cannot raise
here, since _instance was just observed to be None) and store it in
_instance; return _instance. -/
def VisitorManager.get_instance (g : SingletonClassState) : Nat × SingletonClassState :=
  match g._instance with
  | some i => (i, g)
  | none => (g.next_tag, { _instance := some g.next_tag, next_tag := g.next_tag + 1 })

/-- The identity/hierarchy skeleton of a finalized code block model: id,
parent_id, block_type and the ordered children list, which are the fields
of BaseCodeBlockModel (src/models/models.py) that the hierarchy claims
are about. -/
inductive Model where
  | mk (id : String) (parent_id : Option String) (block_type : BlockType) (children : List Model)

def Model.id : Model → String
  | .mk i _ _ _ => i

def Model.parent_id : Model → Option String
  | .mk _ p _ _ => p

def Model.block_type : Model → BlockType
  | .mk _ _ bt _ => bt

def Model.children : Model → List Model
  | .mk _ _ _ ch => ch

/-- Number of children whose id equals the given id. -/
def countMatchingId (l : List Model) (i : String) : Nat :=
  (l.filter (fun m => m.id = i)).length

/-- CommentModel (src/models/models.py). -/
structure CommentModel where
  content : String
  comment_type : CommentType
deriving DecidableEq, Repr

/-- DecoratorModel (src/models/models.py). -/
structure DecoratorModel where
  decorator_name : String
  decorator_args : Option (List String)
deriving DecidableEq, Repr

/-- ClassKeywordModel (src/models/models.py). -/
structure ClassKeywordModel where
  keyword_name : String
  arg_value : String
deriving DecidableEq, Repr

/-- ImportNameModel (src/models/models.py). -/
structure ImportNameModel where
  name : String
  as_name : Option String
deriving DecidableEq, Repr

/-- ImportModel (src/models/models.py). -/
structure ImportModel where
  import_names : List ImportNameModel
  imported_from : Option String
  import_module_type : ImportModuleType
deriving DecidableEq, Repr

/-- BaseCodeBlockModel (src/models/models.py).  children elements are the
hierarchy skeletons of the child models. -/
structure BaseCodeBlockModel where
  id : Option String
  parent_id : Option String
  block_type : BlockType
  block_start_line_number : Int
  block_end_line_number : Int
  code_content : String
  important_comments : Option (List CommentModel)
  dependencies : Option (List ImportModel)
  summary : Option String
  children : Option (List Model)

/-- The body of the check_parent_id validator (src/models/models.py).
values_block_type is values.get of the block_type key: the value when
"block_type" in values, and none otherwise, in which case the whole check
is skipped.  When the check runs, a None parent_id makes len raise a
TypeError and an empty string raises "parent_id is required!"; pydantic
surfaces both as a validation error of the model. -/
def check_parent_id (values_block_type : Option BlockType) (v : Option String) :
    Except String (Option String) :=
  match values_block_type with
  | some bt =>
    if bt ≠ BlockType.MODULE then
      match v with
      | none => .error "TypeError: object of type NoneType has no len"
      | some s => if s.length < 1 then .error "parent_id is required!" else .ok v
    else .ok v
  | none => .ok v

/-- Constructing (validating) a BaseCodeBlockModel.  pydantic validates
fields in declaration order — id, parent_id, block_type, ... — and the
values dict handed to a field validator contains only the fields already
validated.  When the parent_id validator runs, block_type has not been
validated yet, so values.get of block_type is none and the validator's
guard is false: the check is skipped for every input. -/
def BaseCodeBlockModel.make (id parent_id : Option String) (block_type : BlockType)
    (block_start_line_number block_end_line_number : Int) (code_content : String)
    (important_comments : Option (List CommentModel)) (dependencies : Option (List ImportModel))
    (summary : Option String) (children : Option (List Model)) :
    Except String BaseCodeBlockModel := do
  let pid ← check_parent_id none parent_id
  .ok ⟨id, pid, block_type, block_start_line_number, block_end_line_number, code_content,
       important_comments, dependencies, summary, children⟩

/-- ClassSpecificAttributes (src/models/models.py).  The attributes field
is list of dict in the source; the dict payload is irrelevant to every
claim and is abstracted by Unit. -/
structure ClassSpecificAttributes where
  class_name : String
  decorators : Option (List DecoratorModel)
  base_classes : Option (List String)
  class_type : ClassType
  docstring : Option String
  attributes : Option (List Unit)
  keywords : Option (List ClassKeywordModel)

/-- Constructing (validating) ClassSpecificAttributes: class_name has the
Field constraint min_length 1, which pydantic does enforce. -/
def ClassSpecificAttributes.make (class_name : String) (decorators : Option (List DecoratorModel))
    (base_classes : Option (List String)) (class_type : ClassType) (docstring : Option String)
    (attributes : Option (List Unit)) (keywords : Option (List ClassKeywordModel)) :
    Except String ClassSpecificAttributes :=
  if class_name.length < 1 then
    .error "class_name: ensure this value has at least 1 characters"
  else
    .ok ⟨class_name, decorators, base_classes, class_type, docstring, attributes, keywords⟩

/-- ClassModel (src/models/models.py): BaseCodeBlockModel and
ClassSpecificAttributes flattened together. -/
structure ClassModel extends BaseCodeBlockModel, ClassSpecificAttributes

/-- Constructing (validating) a ClassModel from already-dumped common and
class-specific attribute values: the same validators run again, with the
same field ordering, so the parent_id check is again skipped. -/
def ClassModel.make (common : BaseCodeBlockModel) (spec : ClassSpecificAttributes) :
    Except String ClassModel := do
  let _ ← check_parent_id none common.parent_id
  if spec.class_name.length < 1 then
    .error "class_name: ensure this value has at least 1 characters"
  else
    .ok ⟨common, spec⟩

/-- ClassModelBuilder (src/model_builders/class_model_builder.py): holds
the two pydantic attribute records. -/
structure ClassModelBuilder where
  common_attributes : BaseCodeBlockModel
  class_attributes : ClassSpecificAttributes

/-- ClassModelBuilder.__init__ together with BaseModelBuilder.__init__
(src/model_builders/class_model_builder.py,
src/model_builders/base_model_builder.py): both pydantic records are
created — and validated — at construction time, with block_type CLASS,
line numbers 1 and 0, empty code_content, every optional field None and
class_type STANDARD. -/
def ClassModelBuilder.make (parent_id class_name class_id : String) :
    Except String ClassModelBuilder := do
  let common ← BaseCodeBlockModel.make (some class_id) (some parent_id) BlockType.CLASS
    1 0 "" none none none none
  let spec ← ClassSpecificAttributes.make class_name none none ClassType.STANDARD none none none
  .ok ⟨common, spec⟩

/-- ClassModelBuilder.build / _create_model_instance: dump both records
and construct the ClassModel, revalidating. -/
def ClassModelBuilder.build (b : ClassModelBuilder) : Except String ClassModel :=
  ClassModel.make b.common_attributes b.class_attributes

/-- The CST fragments comment extraction consumes
(src/visitors/node_processing/common_functions.py,
src/utilities/comment_extractor.py): an EmptyLine with an optional
Comment, a bare Comment token, or any other node. -/
inductive CstCommentNode where
  | emptyLine (comment : Option String)
  | commentTok (value : String)
  | otherNode
deriving DecidableEq, Repr

/-- extract_important_comment
(src/visitors/node_processing/common_functions.py; identical logic in
CommentExtractor.get_important_comment): take the comment text from an
EmptyLine with a comment or from a Comment node, otherwise return None;
then return a CommentModel tagged with the first CommentType member, in
declaration order, whose value is a substring of the text, or None when
no member matches. -/
def extract_important_comment (node : CstCommentNode) : Option CommentModel :=
  let text? : Option String :=
    match node with
    | .emptyLine (some t) => some t
    | .emptyLine none => none
    | .commentTok t => some t
    | .otherNode => none
  match text? with
  | none => none
  | some comment_text =>
    match commentTypeList.find? (fun ct => strContains comment_text ct.value) with
    | some ct => some ⟨comment_text, ct⟩
    | none => none

/-- BaseModelBuilder.add_important_comment
(src/model_builders/base_model_builder.py): if important_comments is
falsy (None or the empty list) replace it with a fresh list, then append. -/
def add_important_comment (cur : Option (List CommentModel)) (c : CommentModel) :
    Option (List CommentModel) :=
  match cur with
  | none => some [c]
  | some [] => some [c]
  | some l => some (l ++ [c])

/-- BaseCodeBlockVisitor.process_comment
(src/visitors/base_code_block_visitor.py): extract an important comment
from the node and, when one is found, add it to the builder's
important_comments. -/
def process_comment (node : CstCommentNode) (cur : Option (List CommentModel)) :
    Option (List CommentModel) :=
  match extract_important_comment node with
  | some c => add_important_comment cur c
  | none => cur

/-- The small statements inside a libcst SimpleStatementLine that the
standalone-block partition inspects: Import, ImportFrom, or anything
else. -/
inductive SmallStmt where
  | importStmt
  | importFrom
  | otherSmall (tag : Nat)
deriving DecidableEq, Repr

/-- The direct body statements the standalone-block partition inspects
(src/visitors/node_processing/standalone_code_block_functions.py):
ClassDef, FunctionDef, a SimpleStatementLine with its small statements,
or any other compound statement (If, For, With, ...). -/
inductive CstStmt where
  | classDef (name : String)
  | functionDef (name : String)
  | simpleStatementLine (body : List SmallStmt)
  | otherCompound (tag : Nat)
deriving DecidableEq, Repr

/-- _is_class_or_function_def
(src/visitors/node_processing/standalone_code_block_functions.py). -/
def _is_class_or_function_def : CstStmt → Bool
  | .classDef _ => true
  | .functionDef _ => true
  | _ => false

/-- _is_import_statement
(src/visitors/node_processing/standalone_code_block_functions.py): a
SimpleStatementLine any of whose elements is an Import or ImportFrom. -/
def _is_import_statement : CstStmt → Bool
  | .simpleStatementLine body =>
    body.any (fun elem =>
      match elem with
      | .importStmt => true
      | .importFrom => true
      | .otherSmall _ => false)
  | _ => false

/-- A statement at which gather_standalone_lines breaks the current run. -/
def isBlockBreak (s : CstStmt) : Bool :=
  _is_class_or_function_def s || _is_import_statement s

/-- PositionData (src/visitors/node_processing/processing_context.py);
the field named end in the source is named stop here because end is a
reserved word in Lean. -/
structure PositionData where
  start : Nat
  stop : Nat
deriving DecidableEq, Repr

/-- NodeAndPositionData (src/utilities/processing_context.py); stop is
the source's end field. -/
structure NodeAndPositionData where
  nodes : List CstStmt
  start : Nat
  stop : Nat
deriving DecidableEq, Repr

/-- The loop of gather_standalone_lines
(src/visitors/node_processing/standalone_code_block_functions.py), with
the loop state (already flushed blocks, current run, current start line)
explicit; pos abstracts visitor_instance.get_node_position_data.  On a
class/function/import statement a nonempty current run is flushed with
the end line of its last statement and start/end reset to 0; any other
statement is appended to the current run, recording its start line when
the run was empty; at the end of the body a nonempty current run is
flushed the same way. -/
def gatherGo (pos : CstStmt → PositionData) :
    List CstStmt → List NodeAndPositionData → List CstStmt → Nat → List NodeAndPositionData
  | [], standalone_blocks, standalone_block, start_line =>
    match standalone_block.getLast? with
    | some lastStmt =>
      standalone_blocks ++ [⟨standalone_block, start_line, (pos lastStmt).stop⟩]
    | none => standalone_blocks
  | statement :: rest, standalone_blocks, standalone_block, start_line =>
    if isBlockBreak statement then
      match standalone_block.getLast? with
      | some lastStmt =>
        gatherGo pos rest
          (standalone_blocks ++ [⟨standalone_block, start_line, (pos lastStmt).stop⟩]) [] 0
      | none => gatherGo pos rest standalone_blocks standalone_block start_line
    else
      match standalone_block with
      | [] => gatherGo pos rest standalone_blocks [statement] (pos statement).start
      | _ => gatherGo pos rest standalone_blocks (standalone_block ++ [statement]) start_line

/-- gather_standalone_lines
(src/visitors/node_processing/standalone_code_block_functions.py). -/
def gather_standalone_lines (pos : CstStmt → PositionData) (node_body : List CstStmt) :
    List NodeAndPositionData :=
  gatherGo pos node_body [] [] 0

/-- Specification, from the spec's words: the maximal contiguous runs of
elements not satisfying p, in source order; every element satisfying p
ends the current run; runs are nonempty. -/
def maximalRuns {α : Type} (p : α → Bool) : List α → List (List α)
  | [] => []
  | a :: l =>
    if p a then maximalRuns p l
    else (a :: l.takeWhile (fun x => !p x)) :: maximalRuns p (l.dropWhile (fun x => !p x))
termination_by l => l.length
decreasing_by
  · simp only [List.length_cons]
    omega
  · simp only [List.length_cons]
    have h := (List.dropWhile_sublist (l := l) (fun x => !p x)).length_le
    omega

/-- An ImportAlias of libcst, with the alias target already rendered to
its string (node.asname.name.value when present). -/
structure ImportAlias where
  name : String
  asname : Option String
deriving DecidableEq, Repr

/-- A libcst Import node: import a, b as c, ... with its alias list. -/
structure CstImport where
  names : List ImportAlias
deriving DecidableEq, Repr

/-- The names field of a libcst ImportFrom node: a star import or an
alias list. -/
inductive ImportFromNames where
  | star
  | aliases (l : List ImportAlias)
deriving DecidableEq, Repr

/-- A libcst ImportFrom node; module is the rendered dotted module path
(None for a bare relative import). -/
structure CstImportFrom where
  module : Option String
  names : ImportFromNames
deriving DecidableEq, Repr

/-- ModuleVisitor.get_import_name (src/visitors/module_visitor.py):
node.names with index 0 — only the first alias is read; indexing an
empty list would raise, modelled by none. -/
def ModuleVisitor.get_import_name (node : CstImport) : Option String :=
  (node.names.head?).map (fun a => a.name)

/-- ModuleVisitor.get_as_name (src/visitors/module_visitor.py). -/
def ModuleVisitor.get_as_name (node : CstImport) : Option String :=
  match node.names.head? with
  | some a => a.asname
  | none => none

/-- ModuleVisitor.build_import_name_model (src/visitors/module_visitor.py). -/
def ModuleVisitor.build_import_name_model (node : CstImport) : Option ImportNameModel :=
  match ModuleVisitor.get_import_name node with
  | some n => some ⟨n, ModuleVisitor.get_as_name node⟩
  | none => none

/-- ModuleVisitor.build_import_model (src/visitors/module_visitor.py). -/
def ModuleVisitor.build_import_model (import_name_models : List ImportNameModel) : ImportModel :=
  ⟨import_name_models, none, ImportModuleType.STANDARD_LIBRARY⟩

/-- ModuleVisitor.process_import (src/visitors/module_visitor.py): build
the single name model from the first alias and wrap it in an ImportModel. -/
def ModuleVisitor.process_import (node : CstImport) : Option ImportModel :=
  (ModuleVisitor.build_import_name_model node).map
    (fun m => ModuleVisitor.build_import_model [m])

/-- ModuleVisitor.build_import_from_name_models
(src/visitors/module_visitor.py): a star import yields the single name
model star; otherwise one name model per alias, in order. -/
def ModuleVisitor.build_import_from_name_models (node : CstImportFrom) : List ImportNameModel :=
  match node.names with
  | .star => [⟨"*", none⟩]
  | .aliases l => l.map (fun a => ⟨a.name, a.asname⟩)

/-- ModuleVisitor.process_import_from (src/visitors/module_visitor.py). -/
def ModuleVisitor.process_import_from (node : CstImportFrom) : ImportModel :=
  ⟨ModuleVisitor.build_import_from_name_models node, node.module,
   ImportModuleType.STANDARD_LIBRARY⟩

/-- Modelled from the spec: recover the block kind from a generated ID
string alone.  The characters after the last > of the ID, together with
the two separator underscores before that segment, determine the kind:
__MODULE exactly for modules, and the prefixes __CLASS_, __FUNCTION_,
__STANDALONE_CODE_BLOCK_ for the other kinds. -/
def decodeBlockKind (id : String) : Option BlockType :=
  let lastSeg : List Char := (id.data.reverse.takeWhile (fun c => c != '>')).reverse
  if lastSeg = "__MODULE".data then some .MODULE
  else if "__CLASS_".data <+: lastSeg then some .CLASS
  else if "__FUNCTION_".data <+: lastSeg then some .FUNCTION
  else if "__STANDALONE_CODE_BLOCK_".data <+: lastSeg then some .STANDALONE_CODE_BLOCK
  else none

/-- func_is_method (src/visitors/node_processing/function_def_functions.py):
true iff str of BlockType.CLASS — the string CLASS — occurs as a
substring of the function's id. -/
def func_is_method (id : String) : Bool :=
  strContains id BlockType.CLASS.value

/-- An ancestor block of a function, for the ancestor-chain reading of
is_method: a class or a function with its name. -/
inductive AncestorKind where
  | classBlock (name : String)
  | functionBlock (name : String)
deriving DecidableEq, Repr

def AncestorKind.blockName : AncestorKind → String
  | .classBlock n => n
  | .functionBlock n => n

/-- Extend a parent id by one ancestor block, with the ID generation
strategy of its kind. -/
def ancestorStep (parent_id : String) : AncestorKind → String
  | .classBlock n => ClassIDGenerationStrategy.generate_id parent_id n
  | .functionBlock n => FunctionIDGenerationStrategy.generate_id parent_id n

/-- The id of the innermost listed ancestor, starting from the given id
and walking the chain outermost first. -/
def chainIdFrom (parent_id : String) : List AncestorKind → String
  | [] => parent_id
  | a :: rest => chainIdFrom (ancestorStep parent_id a) rest

/-- The id the pipeline derives for a function under the given ancestor
chain (outermost first) inside the module at file_path. -/
def functionIdOfChain (file_path : String) (chain : List AncestorKind)
    (function_name : String) : String :=
  FunctionIDGenerationStrategy.generate_id
    (chainIdFrom (ModuleIDGenerationStrategy.generate_id file_path) chain) function_name

/-- Modelled from the spec: some ancestor block of the chain is a CLASS
block. -/
def chainHasClass : List AncestorKind → Bool
  | [] => false
  | .classBlock _ :: _ => true
  | .functionBlock _ :: rest => chainHasClass rest

mutual
/-- The CST shape the block visitors traverse: class definitions,
function definitions (each with a body of statements), and any other
statement (imports, assignments, ... — no visitor creates child block
visitors for them).  PyBody is the statement list of a body, as a
separate inductive so that the traversal recursion is structural. -/
inductive PyNode where
  | classDef (name : String) (body : PyBody)
  | functionDef (name : String) (body : PyBody)
  | simpleStmt
deriving DecidableEq, Repr

inductive PyBody where
  | nil
  | cons (hd : PyNode) (tl : PyBody)
deriving DecidableEq, Repr
end

/-- The mutable state of one code block visitor
(src/visitors/base_code_block_visitor.py): its model_id, the parent_id
and block kind its builder was created with, the children list already
handed to the builder (builder_children, the builder's
common_attributes.children), the visitor's own children list and
children_ids_set.  The builder's other attributes (positions, docstring,
decorators, ...) play no role in any hierarchy claim and are omitted. -/
structure VState where
  model_id : String
  parent_id : Option String
  block_type : BlockType
  builder_children : List Model
  children : List Model
  children_ids_set : List String

/-- add_child_to_parent_visitor (src/visitors/base_code_block_visitor.py):
append the child model to the parent visitor's children and, when the
model's id is truthy, record it in children_ids_set. -/
def addChildToParent (parent : VState) (m : Model) : VState :=
  { parent with
    children := parent.children ++ [m]
    children_ids_set :=
      if m.id ≠ "" then parent.children_ids_set ++ [m.id] else parent.children_ids_set }

/-- leave_ClassDef / leave_FunctionDef (src/visitors/class_def_visitor.py,
src/visitors/function_def_visitor.py): every child model collected by
this visitor is added to its builder; then, if not_added_to_parent_visitor
holds for this visitor's model_id, the builder is built — the model
snapshots the builder's current children — and the model is handed to
the parent visitor. -/
def leaveDispatch (parent self : VState) : VState × VState :=
  let self2 := { self with builder_children := self.builder_children ++ self.children }
  if self2.model_id ∈ parent.children_ids_set then (parent, self2)
  else
    let m := Model.mk self2.model_id self2.parent_id self2.block_type self2.builder_children
    (addChildToParent parent m, self2)

/-- A freshly constructed child visitor: ClassDefVisitor.__init__ /
FunctionDefVisitor.__init__ create a builder bound to the given parent_id
and model id, with no children collected yet. -/
def initVisitor (parent_id model_id : String) (bt : BlockType) : VState :=
  ⟨model_id, some parent_id, bt, [], [], []⟩

mutual
/-- The libcst traversal of one subtree with one visitor, together with
the visitors' own handlers.

visitTree fp vm parent self node is node.visit(self) — it dispatches the
visit handler self defines for the node's type (if any), descends into
the node's body with the same visitor, and dispatches the leave handler.

The ClassDefVisitor handler visit_ClassDef fires for every ClassDef node
of the traversed subtree (src/visitors/class_def_visitor.py): it derives
an id for the node with the visitor's own model_id as parent id, skips
everything if the visitor manager has processed that id, and otherwise
walks the node's direct body; every nested ClassDef or FunctionDef child
whose derived id is unprocessed gets a fresh child visitor, bound to this
visitor as parent, and a full sub-traversal (child.visit on the fresh
visitor).  FunctionDefVisitor.visit_FunctionDef does the same but only
descends into FunctionDef children (src/visitors/function_def_visitor.py).
The leave handlers fire for every node of the matching type left by the
traversal.  The ModuleVisitor defines no handlers for ClassDef or
FunctionDef nodes, so a module-visitor traversal below the Module node
dispatches nothing. -/
def visitTree (fp : String) (vm : VisitorManagerState) (parent self : VState) :
    PyNode → VisitorManagerState × VState × VState
  | .classDef name body =>
    let s1 :=
      match self.block_type with
      | .CLASS =>
        let class_node_id := ClassIDGenerationStrategy.generate_id self.model_id name
        let r := VisitorManager.has_been_processed vm fp class_node_id
        if r.1 then (r.2, self) else manualLoopBoth fp r.2 self body
      | _ => (vm, self)
    let s2 := descendBody fp s1.1 parent s1.2 body
    match (s2.2.2).block_type with
    | .CLASS =>
      let r := leaveDispatch s2.2.1 s2.2.2
      (s2.1, r.1, r.2)
    | _ => s2
  | .functionDef name body =>
    let s1 :=
      match self.block_type with
      | .FUNCTION =>
        let function_node_id := FunctionIDGenerationStrategy.generate_id self.model_id name
        let r := VisitorManager.has_been_processed vm fp function_node_id
        if r.1 then (r.2, self) else manualLoopFunction fp r.2 self body
      | _ => (vm, self)
    let s2 := descendBody fp s1.1 parent s1.2 body
    match (s2.2.2).block_type with
    | .FUNCTION =>
      let r := leaveDispatch s2.2.1 s2.2.2
      (s2.1, r.1, r.2)
    | _ => s2
  | .simpleStmt => (vm, parent, self)

/-- The manual child-descent loop shared by ModuleVisitor.visit_Module and
ClassDefVisitor.visit_ClassDef: for each direct ClassDef or FunctionDef
child, derive its id from self's model_id, ask the visitor manager, and
when unprocessed run a full sub-traversal of the child with a fresh child
visitor of the matching kind, parented to self. -/
def manualLoopBoth (fp : String) (vm : VisitorManagerState) (self : VState) :
    PyBody → VisitorManagerState × VState
  | .nil => (vm, self)
  | .cons child rest =>
    let step : VisitorManagerState × VState :=
      match child with
      | .classDef cname _ =>
        let cid := ClassIDGenerationStrategy.generate_id self.model_id cname
        let r := VisitorManager.has_been_processed vm fp cid
        if r.1 then (r.2, self)
        else
          let s := visitTree fp r.2 self (initVisitor self.model_id cid .CLASS) child
          (s.1, s.2.1)
      | .functionDef cname _ =>
        let cid := FunctionIDGenerationStrategy.generate_id self.model_id cname
        let r := VisitorManager.has_been_processed vm fp cid
        if r.1 then (r.2, self)
        else
          let s := visitTree fp r.2 self (initVisitor self.model_id cid .FUNCTION) child
          (s.1, s.2.1)
      | .simpleStmt => (vm, self)
    manualLoopBoth fp step.1 step.2 rest

/-- The manual child-descent loop of FunctionDefVisitor.visit_FunctionDef:
only FunctionDef children are considered
(src/visitors/function_def_visitor.py). -/
def manualLoopFunction (fp : String) (vm : VisitorManagerState) (self : VState) :
    PyBody → VisitorManagerState × VState
  | .nil => (vm, self)
  | .cons child rest =>
    let step : VisitorManagerState × VState :=
      match child with
      | .functionDef cname _ =>
        let cid := FunctionIDGenerationStrategy.generate_id self.model_id cname
        let r := VisitorManager.has_been_processed vm fp cid
        if r.1 then (r.2, self)
        else
          let s := visitTree fp r.2 self (initVisitor self.model_id cid .FUNCTION) child
          (s.1, s.2.1)
      | _ => (vm, self)
    manualLoopFunction fp step.1 step.2 rest

/-- The generic depth-first descent of the libcst traversal below a node:
visit each statement of the body in order with the same visitor. -/
def descendBody (fp : String) (vm : VisitorManagerState) (parent self : VState) :
    PyBody → VisitorManagerState × VState × VState
  | .nil => (vm, parent, self)
  | .cons hd tl =>
    let s := visitTree fp vm parent self hd
    descendBody fp s.1 s.2.1 s.2.2 tl
end

/-- One full wrapped_tree.visit(module_visitor) traversal
(src/visitors/module_visitor.py): visit_Module asks the visitor manager
about the module's own id and, when unprocessed, runs the manual
child-descent loop over the module body; the generic traversal then
descends below the Module node with the module visitor, which defines no
ClassDef/FunctionDef handlers (the module visitor has no parent visitor;
the dummy parent slot threaded through the descent is untouched, which
the lemmas below prove); finally leave_Module adds every collected child
model to the module builder. -/
def runModuleTraversal (fp : String) (vm : VisitorManagerState) (mv : VState) (body : PyBody) :
    VisitorManagerState × VState :=
  let r := VisitorManager.has_been_processed vm fp mv.model_id
  let s1 := if r.1 then (r.2, mv) else manualLoopBoth fp r.2 mv body
  let dummy : VState := ⟨"", none, .MODULE, [], [], []⟩
  let s2 := descendBody fp s1.1 dummy s1.2 body
  (s2.1, { s2.2.2 with builder_children := (s2.2.2).builder_children ++ (s2.2.2).children })

/-- PythonParser.parse (src/parsers/python_parser.py): derive the module
id from the file path, create the module visitor (its builder has
parent_id None and block type MODULE,
src/model_builders/module_model_builder.py), run one traversal with a
fresh visitor manager, and build the module model. -/
def PythonParser.parse (fp : String) (body : PyBody) : Model :=
  let module_id := ModuleIDGenerationStrategy.generate_id fp
  let mv : VState := ⟨module_id, none, .MODULE, [], [], []⟩
  let s := runModuleTraversal fp (VisitorManagerState.mk []) mv body
  Model.mk s.2.model_id s.2.parent_id s.2.block_type s.2.builder_children

/-- The same, but the traversal is run twice over the same tree with the
same visitor manager and module visitor before the model is built. -/
def PythonParser.parseTwice (fp : String) (body : PyBody) : Model :=
  let module_id := ModuleIDGenerationStrategy.generate_id fp
  let mv : VState := ⟨module_id, none, .MODULE, [], [], []⟩
  let s := runModuleTraversal fp (VisitorManagerState.mk []) mv body
  let s2 := runModuleTraversal fp s.1 s.2 body
  Model.mk s2.2.model_id s2.2.parent_id s2.2.block_type s2.2.builder_children

/-- The ids the identity scheme derives for the direct ClassDef and
FunctionDef children of a body under the given parent id, in source
order. -/
def directChildrenIds (parent_id : String) : PyBody → List String
  | .nil => []
  | .cons (.classDef n _) rest =>
    ClassIDGenerationStrategy.generate_id parent_id n :: directChildrenIds parent_id rest
  | .cons (.functionDef n _) rest =>
    FunctionIDGenerationStrategy.generate_id parent_id n :: directChildrenIds parent_id rest
  | .cons .simpleStmt rest => directChildrenIds parent_id rest

/-- Every direct ClassDef or FunctionDef child name of the body is free
of the character > (every Python identifier is). -/
def directNamesFree : PyBody → Bool
  | .nil => true
  | .cons (.classDef n _) rest => decide ('>' ∉ n.data) && directNamesFree rest
  | .cons (.functionDef n _) rest => decide ('>' ∉ n.data) && directNamesFree rest
  | .cons .simpleStmt rest => directNamesFree rest

/-- Two visitor states agreeing on the fields fixed at construction:
model_id, parent_id, block kind. -/
def SameMeta (a b : VState) : Prop :=
  b.model_id = a.model_id ∧ b.parent_id = a.parent_id ∧ b.block_type = a.block_type

/-- How a full sub-traversal changes its creator-parent state p: either p
is untouched, or exactly one model — carrying the sub-visitor's identity,
parent id and kind — was appended by the guarded attach of the leave
handler. -/
def ParentStep (i : String) (pid : Option String) (bt : BlockType) (p q : VState) : Prop :=
  q = p ∨ (i ∉ p.children_ids_set ∧ ∃ ch, q = addChildToParent p (Model.mk i pid bt ch))

/-- k extends sid by an ID separator.  Every visitor-manager key recorded
during a traversal with a visitor of model id sid has this shape. -/
def KeyExt (sid k : String) : Prop :=
  ∃ r, k = sid ++ ("__>__" ++ r)

/-- The node kind for which a visitor of the given block kind dispatches
its leave handler. -/
def rootMatches (bt : BlockType) : PyNode → Prop
  | .classDef _ _ => bt = BlockType.CLASS
  | .functionDef _ _ => bt = BlockType.FUNCTION
  | .simpleStmt => False

/-- Every block of this model tree, the root included, has a non-null
parent id. -/
inductive Model.Parented : Model → Prop where
  | intro (id pid : String) (bt : BlockType) (ch : List Model) :
      (∀ m ∈ ch, Model.Parented m) → Model.Parented (Model.mk id (some pid) bt ch)

/-- Visitor-state well-formedness: class/function visitors carry a parent
id, and every model collected so far (visitor children as well as builder
children) is a fully parented tree. -/
def VGood (v : VState) : Prop :=
  (v.block_type = BlockType.CLASS ∨ v.block_type = BlockType.FUNCTION → v.parent_id ≠ none) ∧
  (∀ m ∈ v.children, Model.Parented m) ∧
  (∀ m ∈ v.builder_children, Model.Parented m)

/-- Number of ID-separator markers in a string: occurrences of the
character >.  Every generated id carries one more than its parent id,
which separates the id namespaces of the different nesting depths. -/
def gtCount (s : String) : Nat :=
  s.data.count '>'

/-- The invariant the module-level child loop maintains between the
visitor manager scope of the module and the module visitor state: the
keys of at most one separator more than the module id recorded in the
scope are exactly the attached children ids plus the module id itself,
the attached children ids mirror the children models one to one, and no
id was attached twice. -/
def LoopInv (fp mid : String) (vm : VisitorManagerState) (st : VState) : Prop :=
  st.model_id = mid ∧
  (∀ i, gtCount i ≤ gtCount mid + 1 →
    (i ∈ vmScope vm fp ↔ i ∈ st.children_ids_set ∨ i = mid)) ∧
  st.children.map Model.id = st.children_ids_set ∧
  st.children_ids_set.Nodup

/-- First model of the list with the given id, if any. -/
def childById (l : List Model) (i : String) : Option Model :=
  l.find? (fun m => m.id = i)

theorem lookupScope_append_self (t : List (String × List String)) (m : String)
    (h : lookupScope t m = none) : lookupScope (t ++ [(m, [])]) m = some [] := by
  induction t with
  | nil => simp [lookupScope]
  | cons kv rest ih =>
    obtain ⟨k, v⟩ := kv
    by_cases hk : k = m
    · subst hk
      simp [lookupScope] at h
    · simp only [lookupScope, hk, if_false, List.cons_append] at h ⊢
      exact ih h

theorem lookupScope_append_ne (t : List (String × List String)) (m m' : String)
    (h : m' ≠ m) : lookupScope (t ++ [(m, [])]) m' = lookupScope t m' := by
  induction t with
  | nil =>
    simp only [List.nil_append, lookupScope, ite_eq_right_iff]
    intro hk
    exact absurd hk.symm h
  | cons kv rest ih =>
    obtain ⟨k, v⟩ := kv
    by_cases hk : k = m'
    · simp [lookupScope, hk]
    · simp only [List.cons_append, lookupScope, hk, if_false]
      exact ih

theorem lookupScope_insertNode_self (t : List (String × List String)) (m n : String)
    (s : List String) (h : lookupScope t m = some s) :
    lookupScope (insertNode t m n) m = some (s ++ [n]) := by
  induction t with
  | nil => simp [lookupScope] at h
  | cons kv rest ih =>
    obtain ⟨k, v⟩ := kv
    by_cases hk : k = m
    · subst hk
      simp only [lookupScope, if_true, eq_self_iff_true, Option.some.injEq] at h
      subst h
      simp [insertNode, lookupScope]
    · simp only [lookupScope, hk, if_false] at h
      simp only [insertNode, hk, if_false, lookupScope]
      exact ih h

theorem lookupScope_insertNode_ne (t : List (String × List String)) (m m' n : String)
    (h : m' ≠ m) : lookupScope (insertNode t m n) m' = lookupScope t m' := by
  induction t with
  | nil =>
    simp only [insertNode, lookupScope, ite_eq_right_iff]
    intro hk
    exact absurd hk.symm h
  | cons kv rest ih =>
    obtain ⟨k, v⟩ := kv
    by_cases hk : k = m
    · subst hk
      have hk2 : ¬k = m' := fun hh => h hh.symm
      simp [insertNode, lookupScope, hk2]
    · by_cases hk2 : k = m'
      · subst hk2
        simp [insertNode, hk, lookupScope]
      · simp only [insertNode, hk, if_false, lookupScope, hk2]
        exact ih

theorem has_been_processed_fst (vm : VisitorManagerState) (m n : String) :
    (VisitorManager.has_been_processed vm m n).1 = decide (n ∈ vmScope vm m) := by
  unfold VisitorManager.has_been_processed vmScope
  cases h : lookupScope vm.processed_nodes m with
  | none =>
    have h2 := lookupScope_append_self vm.processed_nodes m h
    simp [h2, h]
  | some s =>
    simp only [h, Option.getD_some]
    by_cases hn : n ∈ s <;> simp [hn]

theorem vmScope_has_been_processed_self (vm : VisitorManagerState) (m n : String) :
    vmScope (VisitorManager.has_been_processed vm m n).2 m =
      (if n ∈ vmScope vm m then vmScope vm m else vmScope vm m ++ [n]) := by
  unfold VisitorManager.has_been_processed vmScope
  cases h : lookupScope vm.processed_nodes m with
  | none =>
    have h2 := lookupScope_append_self vm.processed_nodes m h
    have h3 := lookupScope_insertNode_self (vm.processed_nodes ++ [(m, [])]) m n [] h2
    simp [h, h2, h3]
  | some s =>
    simp only [h, Option.getD_some]
    by_cases hn : n ∈ s
    · simp [hn, h]
    · have h3 := lookupScope_insertNode_self vm.processed_nodes m n s h
      simp [hn, h3]

theorem vmScope_has_been_processed_ne (vm : VisitorManagerState) (m m' n : String)
    (h : m' ≠ m) :
    vmScope (VisitorManager.has_been_processed vm m n).2 m' = vmScope vm m' := by
  unfold VisitorManager.has_been_processed vmScope
  cases hm : lookupScope vm.processed_nodes m with
  | none =>
    have h2 := lookupScope_append_self vm.processed_nodes m hm
    have h4 := lookupScope_append_ne vm.processed_nodes m m' h
    have h5 := lookupScope_insertNode_ne (vm.processed_nodes ++ [(m, [])]) m m' n h
    simp [h2, h4, h5]
  | some s =>
    simp only [hm, Option.getD_some]
    by_cases hn : n ∈ s
    · simp [hn]
    · have h5 := lookupScope_insertNode_ne vm.processed_nodes m m' n h
      simp [hn, h5]

theorem mem_vmScope_has_been_processed (vm : VisitorManagerState) (m n a b : String)
    (h : n ∈ vmScope vm m) :
    n ∈ vmScope (VisitorManager.has_been_processed vm a b).2 m := by
  by_cases ha : m = a
  · subst ha
    rw [vmScope_has_been_processed_self]
    by_cases hb : b ∈ vmScope vm m
    · simpa [hb]
    · simp only [hb, if_false]
      exact List.mem_append_left _ h
  · rw [vmScope_has_been_processed_ne vm a m b ha]
    exact h

theorem mem_vmScope_runCalls (m n : String) (calls : List (String × String))
    (vm : VisitorManagerState) (h : n ∈ vmScope vm m) :
    n ∈ vmScope (runCalls vm calls) m := by
  induction calls generalizing vm with
  | nil => exact h
  | cons c rest ih =>
    obtain ⟨a, b⟩ := c
    exact ih _ (mem_vmScope_has_been_processed vm m n a b h)

/-- C2: the first has_been_processed call for a pair of scope key and node
key returns false and records the pair; every subsequent call with the
same pair returns true, whatever interleaving of calls for other pairs
happens in between. -/
theorem has_been_processed_contract (vm : VisitorManagerState) (m n : String)
    (h : n ∉ vmScope vm m) :
    (VisitorManager.has_been_processed vm m n).1 = false ∧
    ∀ calls : List (String × String),
      (VisitorManager.has_been_processed
        (runCalls (VisitorManager.has_been_processed vm m n).2 calls) m n).1 = true := by
  constructor
  · rw [has_been_processed_fst]
    simpa using h
  · intro calls
    rw [has_been_processed_fst]
    have h1 : n ∈ vmScope (VisitorManager.has_been_processed vm m n).2 m := by
      rw [vmScope_has_been_processed_self]
      simp only [h, if_false]
      exact List.mem_append_right _ (List.mem_singleton.mpr rfl)
    simpa using mem_vmScope_runCalls m n calls _ h1

/-- C2 witness: the contract at a concrete fresh manager, with an
interleaving of two other pairs between the first and the second call for
the tracked pair. -/
theorem has_been_processed_contract_witness :
    ("node1" ∉ vmScope (VisitorManagerState.mk []) "m.py") ∧
    (VisitorManager.has_been_processed (VisitorManagerState.mk []) "m.py" "node1").1 = false ∧
    (VisitorManager.has_been_processed
      (runCalls (VisitorManager.has_been_processed (VisitorManagerState.mk []) "m.py" "node1").2
        [("m.py", "node2"), ("other.py", "node1")]) "m.py" "node1").1 = true :=
  ⟨by decide,
   (has_been_processed_contract (VisitorManagerState.mk []) "m.py" "node1" (by decide)).1,
   (has_been_processed_contract (VisitorManagerState.mk []) "m.py" "node1" (by decide)).2
     [("m.py", "node2"), ("other.py", "node1")]⟩

/-- C6 counterexample: with a fresh class state (no get_instance call
yet), a first direct constructor call returns an instance — an instance
now exists — and a second direct constructor call, instead of raising,
silently returns another fresh object (a different tag with empty state),
because __init__ only checks the _instance class attribute, which only
get_instance ever sets. -/
theorem visitor_manager_singleton_counterexample :
    VisitorManager.init ⟨none, 0⟩ = .ok (0, ⟨none, 1⟩) ∧
    VisitorManager.init ⟨none, 1⟩ = .ok (1, ⟨none, 2⟩) ∧ (0 : Nat) ≠ 1 :=
  ⟨rfl, rfl, by decide⟩

/-- C6 amended: a direct constructor call raises the construction error
exactly when get_instance has already stored the managed instance in the
_instance class attribute; get_instance always returns that same single
instance and leaves the state unchanged; but constructor calls themselves
never set _instance, so before any get_instance call, direct construction
silently returns a fresh object with no state. -/
theorem visitor_manager_singleton_amended (g : SingletonClassState) :
    (∀ i g1, VisitorManager.get_instance g = (i, g1) →
      VisitorManager.init g1 = .error "VisitorManager instance already exists." ∧
      VisitorManager.get_instance g1 = (i, g1)) ∧
    (g._instance = none →
      ∃ t g1, VisitorManager.init g = .ok (t, g1) ∧ g1._instance = none) := by
  constructor
  · intro i g1 hg
    cases hg' : g._instance with
    | some j =>
      rw [VisitorManager.get_instance] at hg
      simp only [hg'] at hg
      obtain ⟨hi, hg1⟩ := Prod.mk.injEq .. ▸ hg
      subst hi
      subst hg1
      constructor
      · rw [VisitorManager.init]
        simp [hg']
      · rw [VisitorManager.get_instance]
        simp [hg']
    | none =>
      rw [VisitorManager.get_instance] at hg
      simp only [hg'] at hg
      obtain ⟨hi, hg1⟩ := Prod.mk.injEq .. ▸ hg
      subst hi
      subst hg1
      constructor
      · rw [VisitorManager.init]
      · rw [VisitorManager.get_instance]
  · intro hg
    refine ⟨g.next_tag, { g with next_tag := g.next_tag + 1 }, ?_, hg⟩
    rw [VisitorManager.init]
    simp [hg]

/-- C6 witness: the amended contract at a concrete class state: after
get_instance stores instance 5, a direct construction raises and
get_instance keeps returning instance 5. -/
theorem visitor_manager_singleton_amended_witness :
    VisitorManager.init ⟨some 5, 6⟩ = .error "VisitorManager instance already exists." ∧
    VisitorManager.get_instance ⟨some 5, 6⟩ = (5, ⟨some 5, 6⟩) :=
  (visitor_manager_singleton_amended ⟨none, 5⟩).1 5 ⟨some 5, 6⟩ rfl

/-- C10: a plain import statement with two or more comma-separated names
produces an import model recording only the first name (with its alias)
and silently dropping all subsequent names, while a from-import records
every imported name in order. -/
theorem import_first_name_only (a b : ImportAlias) (rest : List ImportAlias)
    (mod : Option String) (l : List ImportAlias) :
    ModuleVisitor.process_import ⟨a :: b :: rest⟩ =
      some ⟨[⟨a.name, a.asname⟩], none, ImportModuleType.STANDARD_LIBRARY⟩ ∧
    (ModuleVisitor.process_import_from ⟨mod, .aliases l⟩).import_names =
      l.map (fun al => ⟨al.name, al.asname⟩) :=
  ⟨rfl, rfl⟩

/-- C7: a comment whose text contains the substring TODO is extracted as
a comment model tagged TODO and stored in important_comments; a comment
whose text contains none of the tags of the fixed vocabulary is not
extracted, is absent from important_comments, and raises no error (the
extractor is total). -/
theorem important_comment_contract (text : String) (cur : Option (List CommentModel)) :
    (strContains text "TODO" = true →
      extract_important_comment (.commentTok text) = some ⟨text, CommentType.TODO⟩ ∧
      ∃ l, process_comment (.commentTok text) cur = some l ∧
        (⟨text, CommentType.TODO⟩ : CommentModel) ∈ l) ∧
    ((∀ ct ∈ commentTypeList, strContains text ct.value = false) →
      extract_important_comment (.commentTok text) = none ∧
      process_comment (.commentTok text) cur = cur) := by
  constructor
  · intro h
    have hext : extract_important_comment (.commentTok text) =
        some ⟨text, CommentType.TODO⟩ := by
      simp [extract_important_comment, commentTypeList, List.find?, CommentType.value, h]
    refine ⟨hext, ?_⟩
    rw [process_comment, hext]
    rcases cur with _ | l
    · exact ⟨[⟨text, CommentType.TODO⟩], rfl, List.mem_singleton.mpr rfl⟩
    · rcases l with _ | ⟨x, xs⟩
      · exact ⟨[⟨text, CommentType.TODO⟩], rfl, List.mem_singleton.mpr rfl⟩
      · refine ⟨(x :: xs) ++ [⟨text, CommentType.TODO⟩], ?_,
          List.mem_append_right _ (List.mem_singleton.mpr rfl)⟩
        rfl
  · intro h
    have hfind : commentTypeList.find? (fun ct => strContains text ct.value) = none := by
      rw [List.find?_eq_none]
      intro ct hct
      simp [h ct hct]
    have hext : extract_important_comment (.commentTok text) = none := by
      simp [extract_important_comment, hfind]
    exact ⟨hext, by rw [process_comment, hext]⟩

/-- C7 witness: the contract at two concrete comments, one containing
TODO and one containing no tag of the vocabulary. -/
theorem important_comment_contract_witness :
    strContains "# TODO fix later" "TODO" = true ∧
    extract_important_comment (.commentTok "# TODO fix later") =
      some ⟨"# TODO fix later", CommentType.TODO⟩ ∧
    (∀ ct ∈ commentTypeList, strContains "# a plain remark" ct.value = false) ∧
    extract_important_comment (.commentTok "# a plain remark") = none ∧
    process_comment (.commentTok "# a plain remark") none = none :=
  ⟨by decide,
   ((important_comment_contract "# TODO fix later" none).1 (by decide)).1,
   by decide,
   ((important_comment_contract "# a plain remark" none).2 (by decide)).1,
   ((important_comment_contract "# a plain remark" none).2 (by decide)).2⟩

/-- C5 (code bug): the parent_id validator of BaseCodeBlockModel never
fires — pydantic validates fields in declaration order and hands a field
validator only the already-validated fields, and block_type is declared
after parent_id, so the guard block_type in values is always false.  A
non-module block model with an empty parent id is therefore accepted,
although the validator's own docstring says parent_id must then be a
non-empty string; the validator body, had it run, would have rejected it.
The other two parts of the claim hold: an empty class name raises a
validation error at builder construction, and building with a non-empty
name and no optional fields set succeeds with those fields null. -/
theorem builder_validation_contract :
    (∃ m, BaseCodeBlockModel.make (some "cid") (some "") BlockType.CLASS 1 0 ""
        none none none none = .ok m ∧ m.parent_id = some "") ∧
    (∃ bld, ClassModelBuilder.make "" "Widget" "cid" = .ok bld) ∧
    check_parent_id (some BlockType.CLASS) (some "") = .error "parent_id is required!" ∧
    ClassModelBuilder.make "pid" "" "cid" =
      .error "class_name: ensure this value has at least 1 characters" ∧
    (∃ bld m, ClassModelBuilder.make "pid" "Widget" "cid" = .ok bld ∧
      ClassModelBuilder.build bld = .ok m ∧
      m.decorators = none ∧ m.base_classes = none ∧ m.docstring = none ∧
      m.attributes = none ∧ m.keywords = none ∧ m.class_type = ClassType.STANDARD ∧
      m.important_comments = none ∧ m.children = none ∧ m.summary = none) := by
  refine ⟨⟨_, rfl, rfl⟩, ⟨_, rfl⟩, rfl, rfl, ?_⟩
  refine ⟨_, _, rfl, rfl, ?_, ?_, ?_, ?_, ?_, ?_, ?_, ?_, ?_⟩ <;> rfl

theorem maximalRuns_join {α : Type} (p : α → Bool) (l : List α) :
    (maximalRuns p l).flatten = l.filter (fun x => !p x) := by
  induction l using maximalRuns.induct p with
  | case1 => simp [maximalRuns]
  | case2 a l h ih =>
    rw [maximalRuns]
    simp only [if_pos h, List.filter_cons, h]
    simpa using ih
  | case3 a l h ih =>
    rw [maximalRuns]
    simp only [if_neg h, List.flatten_cons]
    have hsplit : l.takeWhile (fun x => !p x) ++ l.dropWhile (fun x => !p x) = l :=
      List.takeWhile_append_dropWhile _ _
    have hfilt : (l.takeWhile (fun x => !p x)).filter (fun x => !p x) =
        l.takeWhile (fun x => !p x) :=
      List.filter_eq_self.mpr (fun x hx => @List.mem_takeWhile_imp α (fun y => !p y) l x hx)
    calc (a :: l.takeWhile (fun x => !p x)) ++
          (maximalRuns p (l.dropWhile (fun x => !p x))).flatten
        = a :: (l.takeWhile (fun x => !p x) ++
            (l.dropWhile (fun x => !p x)).filter (fun x => !p x)) := by
          rw [ih]; simp
      _ = a :: l.filter (fun x => !p x) := by
          conv_rhs => rw [← hsplit]
          rw [List.filter_append, hfilt]
      _ = List.filter (fun x => !p x) (a :: l) := by
          have h2 : p a = false := by
            cases hpa : p a
            · rfl
            · exact absurd hpa h
          simp [List.filter_cons, h2]

theorem maximalRuns_ne_nil {α : Type} (p : α → Bool) (l : List α) :
    ∀ b ∈ maximalRuns p l, b ≠ [] := by
  induction l using maximalRuns.induct p with
  | case1 => simp [maximalRuns]
  | case2 a l h ih =>
    rw [maximalRuns]
    simpa [if_pos h] using ih
  | case3 a l h ih =>
    rw [maximalRuns]
    simp only [if_neg h, List.mem_cons]
    intro b hb
    rcases hb with hb | hb
    · subst hb
      simp
    · exact ih b hb

theorem maximalRuns_no_break {α : Type} (p : α → Bool) (l : List α) :
    ∀ b ∈ maximalRuns p l, ∀ x ∈ b, p x = false := by
  induction l using maximalRuns.induct p with
  | case1 => simp [maximalRuns]
  | case2 a l h ih =>
    rw [maximalRuns]
    simpa [if_pos h] using ih
  | case3 a l h ih =>
    rw [maximalRuns]
    simp only [if_neg h, List.mem_cons]
    intro b hb x hx
    rcases hb with hb | hb
    · subst hb
      rcases List.mem_cons.mp hx with hx | hx
      · subst hx
        cases hpa : p x
        · rfl
        · exact absurd hpa h
      · have := @List.mem_takeWhile_imp α (fun y => !p y) l x hx
        simpa using this
    · exact ih b hb x hx

theorem gatherGo_nodes (pos : CstStmt → PositionData) (l : List CstStmt) :
    ∀ (blocks : List NodeAndPositionData) (cur : List CstStmt) (start_line : Nat),
    (gatherGo pos l blocks cur start_line).map (fun b => b.nodes) =
      blocks.map (fun b => b.nodes) ++
        (match cur with
         | [] => maximalRuns isBlockBreak l
         | _ => (cur ++ l.takeWhile (fun x => !isBlockBreak x)) ::
             maximalRuns isBlockBreak (l.dropWhile (fun x => !isBlockBreak x))) := by
  induction l with
  | nil =>
    intro blocks cur start_line
    rcases cur with _ | ⟨c, cs⟩
    · simp [gatherGo, maximalRuns]
    · have hlast : ∃ z, (c :: cs).getLast? = some z := by
        cases hz : (c :: cs).getLast? with
        | none => exact absurd (List.getLast?_eq_none_iff.mp hz) (by simp)
        | some z => exact ⟨z, rfl⟩
      obtain ⟨z, hz⟩ := hlast
      simp [gatherGo, hz, maximalRuns]
  | cons s rest ih =>
    intro blocks cur start_line
    by_cases hs : isBlockBreak s
    · rcases cur with _ | ⟨c, cs⟩
      · rw [show gatherGo pos (s :: rest) blocks [] start_line =
            gatherGo pos rest blocks [] start_line from by simp [gatherGo, hs]]
        rw [ih blocks [] start_line]
        have hmr : maximalRuns isBlockBreak (s :: rest) = maximalRuns isBlockBreak rest := by
          rw [maximalRuns]
          simp [hs]
        simp [hmr]
      · have hlast : ∃ z, (c :: cs).getLast? = some z := by
          cases hz : (c :: cs).getLast? with
          | none => exact absurd (List.getLast?_eq_none_iff.mp hz) (by simp)
          | some z => exact ⟨z, rfl⟩
        obtain ⟨z, hz⟩ := hlast
        rw [show gatherGo pos (s :: rest) blocks (c :: cs) start_line =
            gatherGo pos rest
              (blocks ++ [⟨c :: cs, start_line, (pos z).stop⟩]) [] 0 from by
          simp [gatherGo, hs, hz]]
        rw [ih _ [] 0]
        have hmr : maximalRuns isBlockBreak (s :: rest) = maximalRuns isBlockBreak rest := by
          rw [maximalRuns]
          simp [hs]
        simp [List.takeWhile_cons, List.dropWhile_cons, hs, hmr]
    · rcases cur with _ | ⟨c, cs⟩
      · rw [show gatherGo pos (s :: rest) blocks [] start_line =
            gatherGo pos rest blocks [s] (pos s).start from by simp [gatherGo, hs]]
        rw [ih blocks [s] (pos s).start]
        have hmr : maximalRuns isBlockBreak (s :: rest) =
            (s :: rest.takeWhile (fun x => !isBlockBreak x)) ::
              maximalRuns isBlockBreak (rest.dropWhile (fun x => !isBlockBreak x)) := by
          rw [maximalRuns]
          simp [hs]
        simp [hmr]
      · rw [show gatherGo pos (s :: rest) blocks (c :: cs) start_line =
            gatherGo pos rest blocks ((c :: cs) ++ [s]) start_line from by
          simp [gatherGo, hs]]
        rw [ih blocks ((c :: cs) ++ [s]) start_line]
        rw [List.takeWhile_cons, List.dropWhile_cons]
        have hns : (!isBlockBreak s) = true := by simp [hs]
        simp [hns, hs]

/-- C9: gather_standalone_lines returns, in source order, exactly the
maximal contiguous runs of direct body statements that are neither class
definitions, nor function definitions, nor import statements: the
returned blocks are the maximal runs of non-break statements; their
concatenation is the subsequence of non-break statements in source order;
every block is nonempty; and no class/function/import statement appears
inside any returned block. -/
theorem gather_standalone_lines_spec (pos : CstStmt → PositionData)
    (node_body : List CstStmt) :
    (gather_standalone_lines pos node_body).map (fun b => b.nodes) =
      maximalRuns isBlockBreak node_body ∧
    ((gather_standalone_lines pos node_body).map (fun b => b.nodes)).flatten =
      node_body.filter (fun s => !isBlockBreak s) ∧
    (∀ b ∈ (gather_standalone_lines pos node_body).map (fun b => b.nodes), b ≠ []) ∧
    (∀ b ∈ (gather_standalone_lines pos node_body).map (fun b => b.nodes),
      ∀ s ∈ b, isBlockBreak s = false) := by
  have h := gatherGo_nodes pos node_body [] [] 0
  simp only [List.map_nil, List.nil_append] at h
  rw [gather_standalone_lines]
  rw [h]
  exact ⟨rfl, maximalRuns_join isBlockBreak node_body,
    maximalRuns_ne_nil isBlockBreak node_body, maximalRuns_no_break isBlockBreak node_body⟩


theorem digitChar_ne_gt (m : Nat) : Nat.digitChar m ≠ '>' := by
  match m with
  | 0 | 1 | 2 | 3 | 4 | 5 | 6 | 7 | 8 | 9 | 10 | 11 | 12 | 13 | 14 | 15 => decide
  | n + 16 =>
    unfold Nat.digitChar
    repeat rw [if_neg (by omega)]
    decide

theorem toDigitsCore_ne_gt (b fuel n : Nat) (acc : List Char)
    (hacc : ∀ c ∈ acc, c ≠ '>') : ∀ c ∈ Nat.toDigitsCore b fuel n acc, c ≠ '>' := by
  induction fuel generalizing n acc with
  | zero =>
    rw [Nat.toDigitsCore]
    exact hacc
  | succ fuel ih =>
    rw [Nat.toDigitsCore]
    split
    · intro c hc
      rcases List.mem_cons.mp hc with hc | hc
      · subst hc
        exact digitChar_ne_gt _
      · exact hacc c hc
    · refine ih _ _ ?_
      intro c hc
      rcases List.mem_cons.mp hc with hc | hc
      · subst hc
        exact digitChar_ne_gt _
      · exact hacc c hc

theorem repr_ne_gt (n : Nat) : '>' ∉ (Nat.repr n).data := by
  intro h
  exact toDigitsCore_ne_gt 10 (n + 1) n [] (by simp) '>' h rfl

theorem takeWhile_append_of_stop {α : Type} (p : α → Bool) (xs : List α)
    (hxs : ∀ a ∈ xs, p a = true) (y : α) (hy : p y = false) (rest : List α) :
    (xs ++ y :: rest).takeWhile p = xs := by
  induction xs with
  | nil => simp [List.takeWhile_cons, hy]
  | cons a l ih =>
    rw [List.cons_append, List.takeWhile_cons, if_pos (hxs a (List.mem_cons_self a l))]
    rw [ih (fun a ha => hxs a (List.mem_cons_of_mem _ ha))]

theorem lastSeg_of_split (pre tail : List Char) (h : ∀ c ∈ tail, (c != '>') = true) :
    ((pre ++ '>' :: tail).reverse.takeWhile (fun c => c != '>')).reverse = tail := by
  rw [List.reverse_append, List.reverse_cons, List.append_assoc, List.singleton_append]
  rw [takeWhile_append_of_stop _ _ (fun a ha => h a (List.mem_reverse.mp ha)) '>'
    (by decide) _]
  exact List.reverse_reverse tail

theorem decodeBlockKind_module (fp : String) :
    decodeBlockKind (ModuleIDGenerationStrategy.generate_id fp) = some BlockType.MODULE := by
  have hdata : (ModuleIDGenerationStrategy.generate_id fp).data =
      (fp.data ++ ['_', '_']) ++ '>' :: "__MODULE".data := by
    show (fp ++ "__>__MODULE").data = _
    rw [String.data_append, List.append_assoc]
    rfl
  have hseg := lastSeg_of_split (fp.data ++ ['_', '_']) "__MODULE".data (by decide)
  rw [decodeBlockKind, hdata, hseg]
  simp

theorem decodeBlockKind_class (p n : String) (hn : '>' ∉ n.data) :
    decodeBlockKind (ClassIDGenerationStrategy.generate_id p n) = some BlockType.CLASS := by
  have hdata : (ClassIDGenerationStrategy.generate_id p n).data =
      (p.data ++ ['_', '_']) ++ '>' :: ("__CLASS_".data ++ n.data) := by
    show (p ++ "__>__CLASS_" ++ n).data = _
    rw [String.data_append, String.data_append, List.append_assoc, List.append_assoc]
    rfl
  have htail : ∀ c ∈ "__CLASS_".data ++ n.data, (c != '>') = true := by
    intro c hc
    rcases List.mem_append.mp hc with hc | hc
    · exact (by decide : ∀ x ∈ "__CLASS_".data, (x != '>') = true) c hc
    · have : c ≠ '>' := fun he => hn (he ▸ hc)
      simpa using this
  have hseg := lastSeg_of_split (p.data ++ ['_', '_']) ("__CLASS_".data ++ n.data) htail
  rw [decodeBlockKind, hdata, hseg]
  have h1 : ¬("__CLASS_".data ++ n.data = "__MODULE".data) := by
    intro he
    have hpre : "__CLASS_".data <+: "__MODULE".data := ⟨n.data, he⟩
    exact absurd hpre (by decide)
  rw [if_neg h1, if_pos (List.prefix_append _ _)]

theorem decodeBlockKind_function (p n : String) (hn : '>' ∉ n.data) :
    decodeBlockKind (FunctionIDGenerationStrategy.generate_id p n) =
      some BlockType.FUNCTION := by
  have hdata : (FunctionIDGenerationStrategy.generate_id p n).data =
      (p.data ++ ['_', '_']) ++ '>' :: ("__FUNCTION_".data ++ n.data) := by
    show (p ++ "__>__FUNCTION_" ++ n).data = _
    rw [String.data_append, String.data_append, List.append_assoc, List.append_assoc]
    rfl
  have htail : ∀ c ∈ "__FUNCTION_".data ++ n.data, (c != '>') = true := by
    intro c hc
    rcases List.mem_append.mp hc with hc | hc
    · exact (by decide : ∀ x ∈ "__FUNCTION_".data, (x != '>') = true) c hc
    · have : c ≠ '>' := fun he => hn (he ▸ hc)
      simpa using this
  have hseg := lastSeg_of_split (p.data ++ ['_', '_']) ("__FUNCTION_".data ++ n.data) htail
  rw [decodeBlockKind, hdata, hseg]
  have h1 : ¬("__FUNCTION_".data ++ n.data = "__MODULE".data) := by
    intro he
    have hpre : "__FUNCTION_".data <+: "__MODULE".data := ⟨n.data, he⟩
    exact absurd hpre (by decide)
  have h2 : ¬("__CLASS_".data <+: "__FUNCTION_".data ++ n.data) := by
    intro hpre
    rcases List.prefix_or_prefix_of_prefix hpre (List.prefix_append _ _) with hc | hc
    · revert hc
      decide
    · revert hc
      decide
  rw [if_neg h1, if_neg h2, if_pos (List.prefix_append _ _)]

theorem decodeBlockKind_standalone (p : String) (count : Nat) :
    decodeBlockKind (StandaloneCodeBlockIDGenerationStrategy.generate_id p count) =
      some BlockType.STANDALONE_CODE_BLOCK := by
  have hdata : (StandaloneCodeBlockIDGenerationStrategy.generate_id p count).data =
      (p.data ++ ['_', '_']) ++ '>' ::
        ("__STANDALONE_CODE_BLOCK_".data ++ (Nat.repr count).data) := by
    show (p ++ "__>__STANDALONE_CODE_BLOCK_" ++ Nat.repr count).data = _
    rw [String.data_append, String.data_append, List.append_assoc, List.append_assoc]
    rfl
  have htail : ∀ c ∈ "__STANDALONE_CODE_BLOCK_".data ++ (Nat.repr count).data,
      (c != '>') = true := by
    intro c hc
    rcases List.mem_append.mp hc with hc | hc
    · exact (by decide : ∀ x ∈ "__STANDALONE_CODE_BLOCK_".data, (x != '>') = true) c hc
    · have : c ≠ '>' := fun he => repr_ne_gt count (he ▸ hc)
      simpa using this
  have hseg := lastSeg_of_split (p.data ++ ['_', '_'])
    ("__STANDALONE_CODE_BLOCK_".data ++ (Nat.repr count).data) htail
  rw [decodeBlockKind, hdata, hseg]
  have h1 : ¬("__STANDALONE_CODE_BLOCK_".data ++ (Nat.repr count).data = "__MODULE".data) := by
    intro he
    have hpre : "__STANDALONE_CODE_BLOCK_".data <+: "__MODULE".data := ⟨(Nat.repr count).data, he⟩
    exact absurd hpre (by decide)
  have h2 : ¬("__CLASS_".data <+: "__STANDALONE_CODE_BLOCK_".data ++ (Nat.repr count).data) := by
    intro hpre
    rcases List.prefix_or_prefix_of_prefix hpre (List.prefix_append _ _) with hc | hc
    · revert hc
      decide
    · revert hc
      decide
  have h3 : ¬("__FUNCTION_".data <+:
      "__STANDALONE_CODE_BLOCK_".data ++ (Nat.repr count).data) := by
    intro hpre
    rcases List.prefix_or_prefix_of_prefix hpre (List.prefix_append _ _) with hc | hc
    · revert hc
      decide
    · revert hc
      decide
  rw [if_neg h1, if_neg h2, if_neg h3, if_pos (List.prefix_append _ _)]

/-- C8 counterexample: the ID formats of the four kinds are not disjoint
for arbitrary well-formed inputs (any file path; any non-empty parent id
and name): the module ID of file path p__>__FUNCTION_q and the function
ID of parent p with name q__>__MODULE are the same string, so the block
kind cannot be recovered from the generated ID alone. -/
theorem id_generation_kind_collision :
    ModuleIDGenerationStrategy.generate_id "p__>__FUNCTION_q" =
      FunctionIDGenerationStrategy.generate_id "p" "q__>__MODULE" ∧
    ("p__>__FUNCTION_q" : String).length ≥ 1 ∧
    ("p" : String).length ≥ 1 ∧ ("q__>__MODULE" : String).length ≥ 1 ∧
    BlockType.MODULE ≠ BlockType.FUNCTION :=
  ⟨rfl, by decide, by decide, by decide, by decide⟩

/-- C8 amended: ID generation is deterministic, pure and total (the
generators are plain functions), and for class/function names that do not
contain the character > — as every Python identifier does not — the four
kinds' ID formats are disjoint and the block kind is recoverable from the
generated ID string alone: decodeBlockKind inverts the generators for any
file path, any parent id and any count, and consequently IDs generated by
different kinds are distinct strings. -/
theorem id_kind_recoverable_amended (fp p n : String) (count : Nat)
    (hn : '>' ∉ n.data) :
    decodeBlockKind (ModuleIDGenerationStrategy.generate_id fp) = some BlockType.MODULE ∧
    decodeBlockKind (ClassIDGenerationStrategy.generate_id p n) = some BlockType.CLASS ∧
    decodeBlockKind (FunctionIDGenerationStrategy.generate_id p n) = some BlockType.FUNCTION ∧
    decodeBlockKind (StandaloneCodeBlockIDGenerationStrategy.generate_id p count) =
      some BlockType.STANDALONE_CODE_BLOCK ∧
    (ModuleIDGenerationStrategy.generate_id fp ≠ ClassIDGenerationStrategy.generate_id p n) ∧
    (ModuleIDGenerationStrategy.generate_id fp ≠
      FunctionIDGenerationStrategy.generate_id p n) ∧
    (ModuleIDGenerationStrategy.generate_id fp ≠
      StandaloneCodeBlockIDGenerationStrategy.generate_id p count) ∧
    (∀ p2 n2, '>' ∉ n2.data →
      ClassIDGenerationStrategy.generate_id p n ≠
        FunctionIDGenerationStrategy.generate_id p2 n2) ∧
    (∀ p2 c2, ClassIDGenerationStrategy.generate_id p n ≠
      StandaloneCodeBlockIDGenerationStrategy.generate_id p2 c2) ∧
    (∀ p2 c2, FunctionIDGenerationStrategy.generate_id p n ≠
      StandaloneCodeBlockIDGenerationStrategy.generate_id p2 c2) := by
  refine ⟨decodeBlockKind_module fp, decodeBlockKind_class p n hn,
    decodeBlockKind_function p n hn, decodeBlockKind_standalone p count,
    ?_, ?_, ?_, ?_, ?_, ?_⟩
  · intro he
    have h := congrArg decodeBlockKind he
    rw [decodeBlockKind_module, decodeBlockKind_class p n hn] at h
    exact absurd h (by decide)
  · intro he
    have h := congrArg decodeBlockKind he
    rw [decodeBlockKind_module, decodeBlockKind_function p n hn] at h
    exact absurd h (by decide)
  · intro he
    have h := congrArg decodeBlockKind he
    rw [decodeBlockKind_module, decodeBlockKind_standalone] at h
    exact absurd h (by decide)
  · intro p2 n2 hn2 he
    have h := congrArg decodeBlockKind he
    rw [decodeBlockKind_class p n hn, decodeBlockKind_function p2 n2 hn2] at h
    exact absurd h (by decide)
  · intro p2 c2 he
    have h := congrArg decodeBlockKind he
    rw [decodeBlockKind_class p n hn, decodeBlockKind_standalone] at h
    exact absurd h (by decide)
  · intro p2 c2 he
    have h := congrArg decodeBlockKind he
    rw [decodeBlockKind_function p n hn, decodeBlockKind_standalone] at h
    exact absurd h (by decide)

/-- C8 witness: kind recovery at concrete inputs with an identifier
name. -/
theorem id_kind_recoverable_amended_witness :
    ('>' ∉ ("Widget" : String).data) ∧
    decodeBlockKind (ModuleIDGenerationStrategy.generate_id "src/app.py") =
      some BlockType.MODULE ∧
    decodeBlockKind
      (ClassIDGenerationStrategy.generate_id "src/app.py__>__MODULE" "Widget") =
      some BlockType.CLASS :=
  ⟨by decide,
   (id_kind_recoverable_amended "src/app.py" "src/app.py__>__MODULE" "Widget" 1
     (by decide)).1,
   (id_kind_recoverable_amended "src/app.py" "src/app.py__>__MODULE" "Widget" 1
     (by decide)).2.1⟩


theorem prefix_append_cons_elim {α : Type} [DecidableEq α] (c : α) (t x y : List α)
    (hc : c ∉ t) (h : t <+: x ++ c :: y) : t <+: x := by
  induction x generalizing t with
  | nil =>
    rcases List.prefix_cons_iff.mp h with h | ⟨t2, ht2, _⟩
    · simp [h]
    · exact absurd (ht2 ▸ List.mem_cons_self c t2) hc
  | cons a x ih =>
    rcases List.prefix_cons_iff.mp h with h | ⟨t2, ht2, hpre⟩
    · simp [h]
    · subst ht2
      have hc2 : c ∉ t2 := fun hm => hc (List.mem_cons_of_mem a hm)
      exact List.cons_prefix_cons.mpr ⟨rfl, ih t2 hc2 hpre⟩

theorem infix_append_cons_elim {α : Type} [DecidableEq α] (c : α) (t x y : List α)
    (hc : c ∉ t) (h : t <:+: x ++ c :: y) : t <:+: x ∨ t <:+: y := by
  induction x generalizing t with
  | nil =>
    rcases List.infix_cons_iff.mp h with h | h
    · rcases List.prefix_cons_iff.mp h with h | ⟨t2, ht2, _⟩
      · exact Or.inl (by simp [h])
      · exact absurd (ht2 ▸ List.mem_cons_self c t2) hc
    · exact Or.inr h
  | cons a x ih =>
    rcases List.infix_cons_iff.mp h with h | h
    · exact Or.inl (prefix_append_cons_elim c t (a :: x) y hc h).isInfix
    · rcases ih t hc h with h | h
      · exact Or.inl (List.infix_cons h)
      · exact Or.inr h

theorem infix_cons_elim {α : Type} [DecidableEq α] (c : α) (t y : List α)
    (hc : c ∉ t) (hne : t ≠ []) (h : t <:+: c :: y) : t <:+: y := by
  rcases infix_append_cons_elim c t [] y hc (by simpa using h) with h | h
  · exact absurd (List.infix_nil.mp h) hne
  · exact h

theorem infix_data_append (t : List Char) (a s : String) (h : t <:+: a.data) :
    t <:+: (a ++ s).data := by
  rw [String.data_append]
  exact h.trans (List.prefix_append a.data s.data).isInfix

theorem contains_CLASS_classStep (pid n : String) :
    "CLASS".data <:+: (ClassIDGenerationStrategy.generate_id pid n).data := by
  show "CLASS".data <:+: (pid ++ "__>__CLASS_" ++ n).data
  rw [String.data_append, String.data_append]
  have h1 : "CLASS".data <:+: "__>__CLASS_".data := by decide
  have h2 : "__>__CLASS_".data <:+: pid.data ++ "__>__CLASS_".data ++ n.data :=
    List.infix_append pid.data "__>__CLASS_".data n.data
  exact h1.trans h2

theorem contains_CLASS_chainIdFrom (pid : String) (chain : List AncestorKind)
    (h : "CLASS".data <:+: pid.data) :
    "CLASS".data <:+: (chainIdFrom pid chain).data := by
  induction chain generalizing pid with
  | nil => exact h
  | cons a rest ih =>
    rw [chainIdFrom]
    refine ih _ ?_
    cases a with
    | classBlock n => exact contains_CLASS_classStep pid n
    | functionBlock n =>
      show "CLASS".data <:+: (pid ++ "__>__FUNCTION_" ++ n).data
      exact infix_data_append _ _ _ (infix_data_append _ _ _ h)

theorem chainHasClass_contains (pid : String) (chain : List AncestorKind)
    (h : chainHasClass chain = true) :
    "CLASS".data <:+: (chainIdFrom pid chain).data := by
  induction chain generalizing pid with
  | nil => simp [chainHasClass] at h
  | cons a rest ih =>
    cases a with
    | classBlock n =>
      rw [chainIdFrom]
      exact contains_CLASS_chainIdFrom _ rest (contains_CLASS_classStep pid n)
    | functionBlock n =>
      rw [chainIdFrom]
      exact ih _ (by simpa [chainHasClass] using h)

theorem not_contains_CLASS_functionStep (pid n : String)
    (hp : ¬ "CLASS".data <:+: pid.data) (hn : ¬ "CLASS".data <:+: n.data) :
    ¬ "CLASS".data <:+: (FunctionIDGenerationStrategy.generate_id pid n).data := by
  intro h
  have hdata : (FunctionIDGenerationStrategy.generate_id pid n).data =
      pid.data ++ '_' :: '_' :: '>' :: '_' :: '_' ::
        'F' :: 'U' :: 'N' :: 'C' :: 'T' :: 'I' :: 'O' :: 'N' :: '_' :: n.data := by
    show (pid ++ "__>__FUNCTION_" ++ n).data = _
    rw [String.data_append, String.data_append, List.append_assoc]
    rfl
  rw [hdata] at h
  have hne : "CLASS".data ≠ [] := by decide
  have hu : '_' ∉ "CLASS".data := by decide
  have hg : '>' ∉ "CLASS".data := by decide
  rcases infix_append_cons_elim '_' _ _ _ hu h with h | h
  · exact hp h
  · have h := infix_cons_elim '_' _ _ hu hne h
    have h := infix_cons_elim '>' _ _ hg hne h
    have h := infix_cons_elim '_' _ _ hu hne h
    have h := infix_cons_elim '_' _ _ hu hne h
    rcases infix_append_cons_elim '_' "CLASS".data
      ['F', 'U', 'N', 'C', 'T', 'I', 'O', 'N'] n.data hu
      (by simpa using h) with h | h
    · revert h
      decide
    · exact hn h

theorem not_contains_CLASS_module (fp : String)
    (hp : ¬ "CLASS".data <:+: fp.data) :
    ¬ "CLASS".data <:+: (ModuleIDGenerationStrategy.generate_id fp).data := by
  intro h
  have hdata : (ModuleIDGenerationStrategy.generate_id fp).data =
      fp.data ++ '_' :: '_' :: '>' :: '_' :: '_' ::
        'M' :: 'O' :: 'D' :: 'U' :: 'L' :: 'E' :: [] := by
    show (fp ++ "__>__MODULE").data = _
    rw [String.data_append]
  rw [hdata] at h
  have hne : "CLASS".data ≠ [] := by decide
  have hu : '_' ∉ "CLASS".data := by decide
  have hg : '>' ∉ "CLASS".data := by decide
  rcases infix_append_cons_elim '_' _ _ _ hu h with h | h
  · exact hp h
  · have h := infix_cons_elim '_' _ _ hu hne h
    have h := infix_cons_elim '>' _ _ hg hne h
    have h := infix_cons_elim '_' _ _ hu hne h
    have h := infix_cons_elim '_' _ _ hu hne h
    revert h
    decide

theorem not_contains_CLASS_chainIdFrom (pid : String) (chain : List AncestorKind)
    (hp : ¬ "CLASS".data <:+: pid.data) (hc : chainHasClass chain = false)
    (hnames : ∀ a ∈ chain, ¬ "CLASS".data <:+: a.blockName.data) :
    ¬ "CLASS".data <:+: (chainIdFrom pid chain).data := by
  induction chain generalizing pid with
  | nil => exact hp
  | cons a rest ih =>
    cases a with
    | classBlock n => simp [chainHasClass] at hc
    | functionBlock n =>
      rw [chainIdFrom]
      refine ih _ ?_ (by simpa [chainHasClass] using hc)
        (fun a ha => hnames a (List.mem_cons_of_mem _ ha))
      exact not_contains_CLASS_functionStep pid n hp
        (hnames (.functionBlock n) (List.mem_cons_self _ _))

theorem func_is_method_amended_core (fp fname : String) (chain : List AncestorKind)
    (hfp : ¬ "CLASS".data <:+: fp.data)
    (hfn : ¬ "CLASS".data <:+: fname.data)
    (hnames : ∀ a ∈ chain, ¬ "CLASS".data <:+: a.blockName.data) :
    func_is_method (functionIdOfChain fp chain fname) = chainHasClass chain := by
  cases hc : chainHasClass chain with
  | true =>
    have h := chainHasClass_contains (ModuleIDGenerationStrategy.generate_id fp) chain hc
    have h2 : "CLASS".data <:+: (functionIdOfChain fp chain fname).data := by
      rw [functionIdOfChain]
      show "CLASS".data <:+: ((chainIdFrom _ chain) ++ "__>__FUNCTION_" ++ fname).data
      exact infix_data_append _ _ _ (infix_data_append _ _ _ h)
    simp [func_is_method, strContains, BlockType.value, h2]
  | false =>
    have h := not_contains_CLASS_chainIdFrom (ModuleIDGenerationStrategy.generate_id fp)
      chain (not_contains_CLASS_module fp hfp) hc hnames
    have h2 : ¬ "CLASS".data <:+: (functionIdOfChain fp chain fname).data := by
      rw [functionIdOfChain]
      exact not_contains_CLASS_functionStep _ fname h hfn
    simp [func_is_method, strContains, BlockType.value, h2]

/-- C3 counterexample: for a module with file path myCLASS.py, a
module-level function f has no class ancestor at all, yet the finalized
is_method flag is true — func_is_method is a substring test for CLASS on
the derived id, and the file path contains CLASS.  This refutes the
claim's assertion that is_method is false for a module-level function
regardless of the module's file path. -/
theorem func_is_method_counterexample :
    func_is_method (functionIdOfChain "myCLASS.py" [] "f") = true ∧
    chainHasClass [] = false :=
  ⟨by decide, rfl⟩

/-- C3 amended: is_method is computed as a substring test — it is true
iff the string CLASS occurs in the function's derived id.  When the
module file path, every enclosing block name, and the function's own name
are free of the substring CLASS (as most real file paths and names are),
this coincides with the ancestor walk: is_method is then true iff some
ancestor block of the chain up to the module root is a CLASS block.  A
CLASS substring in the file path or in any name makes is_method true for
non-methods. -/
theorem func_is_method_amended (fp fname : String) (chain : List AncestorKind)
    (hfp : strContains fp "CLASS" = false)
    (hfn : strContains fname "CLASS" = false)
    (hnames : ∀ a ∈ chain, strContains a.blockName "CLASS" = false) :
    func_is_method (functionIdOfChain fp chain fname) = chainHasClass chain := by
  refine func_is_method_amended_core fp fname chain ?_ ?_ ?_
  · simpa [strContains] using hfp
  · simpa [strContains] using hfn
  · intro a ha
    simpa [strContains] using hnames a ha

/-- C3 witness: the amended statement at a concrete chain with a class
ancestor (a method) whose names avoid the substring CLASS. -/
theorem func_is_method_amended_witness :
    func_is_method (functionIdOfChain "src/app.py"
      [AncestorKind.classBlock "Widget", AncestorKind.functionBlock "helper"] "g") =
    chainHasClass [AncestorKind.classBlock "Widget", AncestorKind.functionBlock "helper"] :=
  func_is_method_amended "src/app.py" "g"
    [AncestorKind.classBlock "Widget", AncestorKind.functionBlock "helper"]
    (by decide) (by decide) (by decide)

theorem sameMeta_rfl (a : VState) : SameMeta a a := ⟨rfl, rfl, rfl⟩

theorem sameMeta_trans {a b c : VState} (h1 : SameMeta a b) (h2 : SameMeta b c) :
    SameMeta a c :=
  ⟨h2.1.trans h1.1, h2.2.1.trans h1.2.1, h2.2.2.trans h1.2.2⟩

theorem addChildToParent_meta (p : VState) (m : Model) : SameMeta p (addChildToParent p m) := by
  simp [addChildToParent, SameMeta]

theorem leaveDispatch_meta (parent self : VState) :
    SameMeta parent (leaveDispatch parent self).1 ∧
    SameMeta self (leaveDispatch parent self).2 := by
  simp only [leaveDispatch]
  split
  · exact ⟨sameMeta_rfl parent, ⟨rfl, rfl, rfl⟩⟩
  · exact ⟨addChildToParent_meta parent _, ⟨rfl, rfl, rfl⟩⟩

mutual
theorem visitTree_meta :
    ∀ (n : PyNode) (fp : String) (vm : VisitorManagerState) (parent self : VState),
    SameMeta parent (visitTree fp vm parent self n).2.1 ∧
    SameMeta self (visitTree fp vm parent self n).2.2
  | .classDef name body, fp, vm, parent, self => by
    cases hbt : self.block_type with
    | CLASS =>
      simp only [visitTree, hbt]
      by_cases hr : (VisitorManager.has_been_processed vm fp
          (ClassIDGenerationStrategy.generate_id self.model_id name)).1
      · rw [if_pos hr]
        have hd := descendBody_meta body fp
          (VisitorManager.has_been_processed vm fp
            (ClassIDGenerationStrategy.generate_id self.model_id name)).2 parent self
        have hbt2 : ((descendBody fp
            (VisitorManager.has_been_processed vm fp
              (ClassIDGenerationStrategy.generate_id self.model_id name)).2
            parent self body).2.2).block_type = BlockType.CLASS := hd.2.2.2.trans hbt
        rw [hbt2]
        have hl := leaveDispatch_meta (descendBody fp
            (VisitorManager.has_been_processed vm fp
              (ClassIDGenerationStrategy.generate_id self.model_id name)).2
            parent self body).2.1
          (descendBody fp
            (VisitorManager.has_been_processed vm fp
              (ClassIDGenerationStrategy.generate_id self.model_id name)).2
            parent self body).2.2
        exact ⟨sameMeta_trans hd.1 hl.1, sameMeta_trans hd.2 hl.2⟩
      · rw [if_neg hr]
        have hm := manualLoopBoth_meta body fp
          (VisitorManager.has_been_processed vm fp
            (ClassIDGenerationStrategy.generate_id self.model_id name)).2 self
        have hd := descendBody_meta body fp
          (manualLoopBoth fp (VisitorManager.has_been_processed vm fp
            (ClassIDGenerationStrategy.generate_id self.model_id name)).2 self body).1
          parent
          (manualLoopBoth fp (VisitorManager.has_been_processed vm fp
            (ClassIDGenerationStrategy.generate_id self.model_id name)).2 self body).2
        have hself : SameMeta self ((descendBody fp
            (manualLoopBoth fp (VisitorManager.has_been_processed vm fp
              (ClassIDGenerationStrategy.generate_id self.model_id name)).2 self body).1
            parent
            (manualLoopBoth fp (VisitorManager.has_been_processed vm fp
              (ClassIDGenerationStrategy.generate_id self.model_id name)).2 self body).2
            body).2.2) := sameMeta_trans hm hd.2
        have hbt2 := hself.2.2.trans hbt
        rw [hbt2]
        exact ⟨sameMeta_trans hd.1 (leaveDispatch_meta _ _).1,
          sameMeta_trans hself (leaveDispatch_meta _ _).2⟩
    | FUNCTION =>
      simp only [visitTree, hbt]
      have hd := descendBody_meta body fp vm parent self
      have hbt2 := hd.2.2.2.trans hbt
      rw [hbt2]
      exact hd
    | MODULE =>
      simp only [visitTree, hbt]
      have hd := descendBody_meta body fp vm parent self
      have hbt2 := hd.2.2.2.trans hbt
      rw [hbt2]
      exact hd
    | STANDALONE_CODE_BLOCK =>
      simp only [visitTree, hbt]
      have hd := descendBody_meta body fp vm parent self
      have hbt2 := hd.2.2.2.trans hbt
      rw [hbt2]
      exact hd
    | IMPORT_BLOCK =>
      simp only [visitTree, hbt]
      have hd := descendBody_meta body fp vm parent self
      have hbt2 := hd.2.2.2.trans hbt
      rw [hbt2]
      exact hd
  | .functionDef name body, fp, vm, parent, self => by
    cases hbt : self.block_type with
    | FUNCTION =>
      simp only [visitTree, hbt]
      by_cases hr : (VisitorManager.has_been_processed vm fp
          (FunctionIDGenerationStrategy.generate_id self.model_id name)).1
      · rw [if_pos hr]
        have hd := descendBody_meta body fp
          (VisitorManager.has_been_processed vm fp
            (FunctionIDGenerationStrategy.generate_id self.model_id name)).2 parent self
        have hbt2 : ((descendBody fp
            (VisitorManager.has_been_processed vm fp
              (FunctionIDGenerationStrategy.generate_id self.model_id name)).2
            parent self body).2.2).block_type = BlockType.FUNCTION := hd.2.2.2.trans hbt
        rw [hbt2]
        exact ⟨sameMeta_trans hd.1 (leaveDispatch_meta _ _).1,
          sameMeta_trans hd.2 (leaveDispatch_meta _ _).2⟩
      · rw [if_neg hr]
        have hm := manualLoopFunction_meta body fp
          (VisitorManager.has_been_processed vm fp
            (FunctionIDGenerationStrategy.generate_id self.model_id name)).2 self
        have hd := descendBody_meta body fp
          (manualLoopFunction fp (VisitorManager.has_been_processed vm fp
            (FunctionIDGenerationStrategy.generate_id self.model_id name)).2 self body).1
          parent
          (manualLoopFunction fp (VisitorManager.has_been_processed vm fp
            (FunctionIDGenerationStrategy.generate_id self.model_id name)).2 self body).2
        have hself := sameMeta_trans hm hd.2
        have hbt2 := hself.2.2.trans hbt
        rw [hbt2]
        exact ⟨sameMeta_trans hd.1 (leaveDispatch_meta _ _).1,
          sameMeta_trans hself (leaveDispatch_meta _ _).2⟩
    | CLASS =>
      simp only [visitTree, hbt]
      have hd := descendBody_meta body fp vm parent self
      have hbt2 := hd.2.2.2.trans hbt
      rw [hbt2]
      exact hd
    | MODULE =>
      simp only [visitTree, hbt]
      have hd := descendBody_meta body fp vm parent self
      have hbt2 := hd.2.2.2.trans hbt
      rw [hbt2]
      exact hd
    | STANDALONE_CODE_BLOCK =>
      simp only [visitTree, hbt]
      have hd := descendBody_meta body fp vm parent self
      have hbt2 := hd.2.2.2.trans hbt
      rw [hbt2]
      exact hd
    | IMPORT_BLOCK =>
      simp only [visitTree, hbt]
      have hd := descendBody_meta body fp vm parent self
      have hbt2 := hd.2.2.2.trans hbt
      rw [hbt2]
      exact hd
  | .simpleStmt, fp, vm, parent, self => by
    simp only [visitTree]
    exact ⟨sameMeta_rfl parent, sameMeta_rfl self⟩

theorem manualLoopBoth_meta :
    ∀ (b : PyBody) (fp : String) (vm : VisitorManagerState) (self : VState),
    SameMeta self (manualLoopBoth fp vm self b).2
  | .nil, fp, vm, self => by
    simp only [manualLoopBoth]
    exact sameMeta_rfl self
  | .cons child rest, fp, vm, self => by
    cases child with
    | classDef cname cbody =>
      simp only [manualLoopBoth]
      by_cases hr : (VisitorManager.has_been_processed vm fp
          (ClassIDGenerationStrategy.generate_id self.model_id cname)).1
      · rw [if_pos hr]
        exact manualLoopBoth_meta rest fp _ self
      · rw [if_neg hr]
        have hv := visitTree_meta (.classDef cname cbody) fp
          (VisitorManager.has_been_processed vm fp
            (ClassIDGenerationStrategy.generate_id self.model_id cname)).2 self
          (initVisitor self.model_id
            (ClassIDGenerationStrategy.generate_id self.model_id cname) BlockType.CLASS)
        exact sameMeta_trans hv.1 (manualLoopBoth_meta rest fp _ _)
    | functionDef cname cbody =>
      simp only [manualLoopBoth]
      by_cases hr : (VisitorManager.has_been_processed vm fp
          (FunctionIDGenerationStrategy.generate_id self.model_id cname)).1
      · rw [if_pos hr]
        exact manualLoopBoth_meta rest fp _ self
      · rw [if_neg hr]
        have hv := visitTree_meta (.functionDef cname cbody) fp
          (VisitorManager.has_been_processed vm fp
            (FunctionIDGenerationStrategy.generate_id self.model_id cname)).2 self
          (initVisitor self.model_id
            (FunctionIDGenerationStrategy.generate_id self.model_id cname) BlockType.FUNCTION)
        exact sameMeta_trans hv.1 (manualLoopBoth_meta rest fp _ _)
    | simpleStmt =>
      simp only [manualLoopBoth]
      exact manualLoopBoth_meta rest fp vm self

theorem manualLoopFunction_meta :
    ∀ (b : PyBody) (fp : String) (vm : VisitorManagerState) (self : VState),
    SameMeta self (manualLoopFunction fp vm self b).2
  | .nil, fp, vm, self => by
    simp only [manualLoopFunction]
    exact sameMeta_rfl self
  | .cons child rest, fp, vm, self => by
    cases child with
    | functionDef cname cbody =>
      simp only [manualLoopFunction]
      by_cases hr : (VisitorManager.has_been_processed vm fp
          (FunctionIDGenerationStrategy.generate_id self.model_id cname)).1
      · rw [if_pos hr]
        exact manualLoopFunction_meta rest fp _ self
      · rw [if_neg hr]
        have hv := visitTree_meta (.functionDef cname cbody) fp
          (VisitorManager.has_been_processed vm fp
            (FunctionIDGenerationStrategy.generate_id self.model_id cname)).2 self
          (initVisitor self.model_id
            (FunctionIDGenerationStrategy.generate_id self.model_id cname) BlockType.FUNCTION)
        exact sameMeta_trans hv.1 (manualLoopFunction_meta rest fp _ _)
    | classDef cname cbody =>
      simp only [manualLoopFunction]
      exact manualLoopFunction_meta rest fp vm self
    | simpleStmt =>
      simp only [manualLoopFunction]
      exact manualLoopFunction_meta rest fp vm self

theorem descendBody_meta :
    ∀ (b : PyBody) (fp : String) (vm : VisitorManagerState) (parent self : VState),
    SameMeta parent (descendBody fp vm parent self b).2.1 ∧
    SameMeta self (descendBody fp vm parent self b).2.2
  | .nil, fp, vm, parent, self => by
    simp only [descendBody]
    exact ⟨sameMeta_rfl parent, sameMeta_rfl self⟩
  | .cons hd tl, fp, vm, parent, self => by
    simp only [descendBody]
    have hv := visitTree_meta hd fp vm parent self
    have hd2 := descendBody_meta tl fp (visitTree fp vm parent self hd).1
      (visitTree fp vm parent self hd).2.1 (visitTree fp vm parent self hd).2.2
    exact ⟨sameMeta_trans hv.1 hd2.1, sameMeta_trans hv.2 hd2.2⟩
end

theorem mem_vmScope_has_been_processed_elim (vm : VisitorManagerState) (m n k : String)
    (h : k ∈ vmScope (VisitorManager.has_been_processed vm m n).2 m) :
    k ∈ vmScope vm m ∨ k = n := by
  rw [vmScope_has_been_processed_self] at h
  by_cases hn : n ∈ vmScope vm m
  · rw [if_pos hn] at h
    exact Or.inl h
  · rw [if_neg hn] at h
    rcases List.mem_append.mp h with h | h
    · exact Or.inl h
    · exact Or.inr (List.mem_singleton.mp h)

theorem keyExt_class (sid n : String) :
    KeyExt sid (ClassIDGenerationStrategy.generate_id sid n) := by
  refine ⟨"CLASS_" ++ n, ?_⟩
  show sid ++ "__>__CLASS_" ++ n = _
  rw [String.append_assoc, ← String.append_assoc "__>__" "CLASS_" n]
  rfl

theorem keyExt_function (sid n : String) :
    KeyExt sid (FunctionIDGenerationStrategy.generate_id sid n) := by
  refine ⟨"FUNCTION_" ++ n, ?_⟩
  show sid ++ "__>__FUNCTION_" ++ n = _
  rw [String.append_assoc, ← String.append_assoc "__>__" "FUNCTION_" n]
  rfl

theorem keyExt_trans (sid c k : String) (h1 : KeyExt sid c) (h2 : KeyExt c k) :
    KeyExt sid k := by
  obtain ⟨r1, hc⟩ := h1
  obtain ⟨r2, hk⟩ := h2
  refine ⟨r1 ++ ("__>__" ++ r2), ?_⟩
  subst hc
  subst hk
  rw [String.append_assoc, String.append_assoc]

mutual
theorem visitTree_keys :
    ∀ (n : PyNode) (fp : String) (vm : VisitorManagerState) (parent self : VState),
    (∀ k, k ∈ vmScope vm fp → k ∈ vmScope (visitTree fp vm parent self n).1 fp) ∧
    (∀ k, k ∈ vmScope (visitTree fp vm parent self n).1 fp →
      k ∈ vmScope vm fp ∨ KeyExt self.model_id k)
  | .classDef name body, fp, vm, parent, self => by
    cases hbt : self.block_type with
    | CLASS =>
      simp only [visitTree, hbt]
      by_cases hr : (VisitorManager.has_been_processed vm fp
          (ClassIDGenerationStrategy.generate_id self.model_id name)).1
      · rw [if_pos hr]
        have hbt2 : ((descendBody fp
            (VisitorManager.has_been_processed vm fp
              (ClassIDGenerationStrategy.generate_id self.model_id name)).2
            parent self body).2.2).block_type = BlockType.CLASS :=
          (descendBody_meta body fp _ parent self).2.2.2.trans hbt
        rw [hbt2]
        have hd := descendBody_keys body fp
          (VisitorManager.has_been_processed vm fp
            (ClassIDGenerationStrategy.generate_id self.model_id name)).2 parent self
        constructor
        · intro k hk
          exact hd.1 k (mem_vmScope_has_been_processed vm fp k fp _ hk)
        · intro k hk
          rcases hd.2 k hk with hk2 | hk2
          · rcases mem_vmScope_has_been_processed_elim vm fp _ k hk2 with hk3 | hk3
            · exact Or.inl hk3
            · exact Or.inr (hk3 ▸ keyExt_class self.model_id name)
          · exact Or.inr hk2
      · rw [if_neg hr]
        have hm := manualLoopBoth_keys body fp
          (VisitorManager.has_been_processed vm fp
            (ClassIDGenerationStrategy.generate_id self.model_id name)).2 self
        have hmm := manualLoopBoth_meta body fp
          (VisitorManager.has_been_processed vm fp
            (ClassIDGenerationStrategy.generate_id self.model_id name)).2 self
        have hd := descendBody_keys body fp
          (manualLoopBoth fp (VisitorManager.has_been_processed vm fp
            (ClassIDGenerationStrategy.generate_id self.model_id name)).2 self body).1
          parent
          (manualLoopBoth fp (VisitorManager.has_been_processed vm fp
            (ClassIDGenerationStrategy.generate_id self.model_id name)).2 self body).2
        have hbt2 : ((descendBody fp
            (manualLoopBoth fp (VisitorManager.has_been_processed vm fp
              (ClassIDGenerationStrategy.generate_id self.model_id name)).2 self body).1
            parent
            (manualLoopBoth fp (VisitorManager.has_been_processed vm fp
              (ClassIDGenerationStrategy.generate_id self.model_id name)).2 self body).2
            body).2.2).block_type = BlockType.CLASS :=
          ((sameMeta_trans hmm (descendBody_meta body fp _ parent _).2).2.2).trans hbt
        rw [hbt2]
        constructor
        · intro k hk
          exact hd.1 k (hm.1 k (mem_vmScope_has_been_processed vm fp k fp _ hk))
        · intro k hk
          rcases hd.2 k hk with hk2 | hk2
          · rcases hm.2 k hk2 with hk3 | hk3
            · rcases mem_vmScope_has_been_processed_elim vm fp _ k hk3 with hk4 | hk4
              · exact Or.inl hk4
              · exact Or.inr (hk4 ▸ keyExt_class self.model_id name)
            · exact Or.inr hk3
          · rw [hmm.1] at hk2
            exact Or.inr hk2
    | FUNCTION =>
      simp only [visitTree, hbt]
      have hbt2 : ((descendBody fp vm parent self body).2.2).block_type =
          BlockType.FUNCTION := (descendBody_meta body fp vm parent self).2.2.2.trans hbt
      rw [hbt2]
      exact descendBody_keys body fp vm parent self
    | MODULE =>
      simp only [visitTree, hbt]
      have hbt2 : ((descendBody fp vm parent self body).2.2).block_type =
          BlockType.MODULE := (descendBody_meta body fp vm parent self).2.2.2.trans hbt
      rw [hbt2]
      exact descendBody_keys body fp vm parent self
    | STANDALONE_CODE_BLOCK =>
      simp only [visitTree, hbt]
      have hbt2 : ((descendBody fp vm parent self body).2.2).block_type =
          BlockType.STANDALONE_CODE_BLOCK :=
        (descendBody_meta body fp vm parent self).2.2.2.trans hbt
      rw [hbt2]
      exact descendBody_keys body fp vm parent self
    | IMPORT_BLOCK =>
      simp only [visitTree, hbt]
      have hbt2 : ((descendBody fp vm parent self body).2.2).block_type =
          BlockType.IMPORT_BLOCK := (descendBody_meta body fp vm parent self).2.2.2.trans hbt
      rw [hbt2]
      exact descendBody_keys body fp vm parent self
  | .functionDef name body, fp, vm, parent, self => by
    cases hbt : self.block_type with
    | FUNCTION =>
      simp only [visitTree, hbt]
      by_cases hr : (VisitorManager.has_been_processed vm fp
          (FunctionIDGenerationStrategy.generate_id self.model_id name)).1
      · rw [if_pos hr]
        have hbt2 : ((descendBody fp
            (VisitorManager.has_been_processed vm fp
              (FunctionIDGenerationStrategy.generate_id self.model_id name)).2
            parent self body).2.2).block_type = BlockType.FUNCTION :=
          (descendBody_meta body fp _ parent self).2.2.2.trans hbt
        rw [hbt2]
        have hd := descendBody_keys body fp
          (VisitorManager.has_been_processed vm fp
            (FunctionIDGenerationStrategy.generate_id self.model_id name)).2 parent self
        constructor
        · intro k hk
          exact hd.1 k (mem_vmScope_has_been_processed vm fp k fp _ hk)
        · intro k hk
          rcases hd.2 k hk with hk2 | hk2
          · rcases mem_vmScope_has_been_processed_elim vm fp _ k hk2 with hk3 | hk3
            · exact Or.inl hk3
            · exact Or.inr (hk3 ▸ keyExt_function self.model_id name)
          · exact Or.inr hk2
      · rw [if_neg hr]
        have hm := manualLoopFunction_keys body fp
          (VisitorManager.has_been_processed vm fp
            (FunctionIDGenerationStrategy.generate_id self.model_id name)).2 self
        have hmm := manualLoopFunction_meta body fp
          (VisitorManager.has_been_processed vm fp
            (FunctionIDGenerationStrategy.generate_id self.model_id name)).2 self
        have hd := descendBody_keys body fp
          (manualLoopFunction fp (VisitorManager.has_been_processed vm fp
            (FunctionIDGenerationStrategy.generate_id self.model_id name)).2 self body).1
          parent
          (manualLoopFunction fp (VisitorManager.has_been_processed vm fp
            (FunctionIDGenerationStrategy.generate_id self.model_id name)).2 self body).2
        have hbt2 : ((descendBody fp
            (manualLoopFunction fp (VisitorManager.has_been_processed vm fp
              (FunctionIDGenerationStrategy.generate_id self.model_id name)).2 self body).1
            parent
            (manualLoopFunction fp (VisitorManager.has_been_processed vm fp
              (FunctionIDGenerationStrategy.generate_id self.model_id name)).2 self body).2
            body).2.2).block_type = BlockType.FUNCTION :=
          ((sameMeta_trans hmm (descendBody_meta body fp _ parent _).2).2.2).trans hbt
        rw [hbt2]
        constructor
        · intro k hk
          exact hd.1 k (hm.1 k (mem_vmScope_has_been_processed vm fp k fp _ hk))
        · intro k hk
          rcases hd.2 k hk with hk2 | hk2
          · rcases hm.2 k hk2 with hk3 | hk3
            · rcases mem_vmScope_has_been_processed_elim vm fp _ k hk3 with hk4 | hk4
              · exact Or.inl hk4
              · exact Or.inr (hk4 ▸ keyExt_function self.model_id name)
            · exact Or.inr hk3
          · rw [hmm.1] at hk2
            exact Or.inr hk2
    | CLASS =>
      simp only [visitTree, hbt]
      have hbt2 : ((descendBody fp vm parent self body).2.2).block_type =
          BlockType.CLASS := (descendBody_meta body fp vm parent self).2.2.2.trans hbt
      rw [hbt2]
      exact descendBody_keys body fp vm parent self
    | MODULE =>
      simp only [visitTree, hbt]
      have hbt2 : ((descendBody fp vm parent self body).2.2).block_type =
          BlockType.MODULE := (descendBody_meta body fp vm parent self).2.2.2.trans hbt
      rw [hbt2]
      exact descendBody_keys body fp vm parent self
    | STANDALONE_CODE_BLOCK =>
      simp only [visitTree, hbt]
      have hbt2 : ((descendBody fp vm parent self body).2.2).block_type =
          BlockType.STANDALONE_CODE_BLOCK :=
        (descendBody_meta body fp vm parent self).2.2.2.trans hbt
      rw [hbt2]
      exact descendBody_keys body fp vm parent self
    | IMPORT_BLOCK =>
      simp only [visitTree, hbt]
      have hbt2 : ((descendBody fp vm parent self body).2.2).block_type =
          BlockType.IMPORT_BLOCK := (descendBody_meta body fp vm parent self).2.2.2.trans hbt
      rw [hbt2]
      exact descendBody_keys body fp vm parent self
  | .simpleStmt, fp, vm, parent, self => by
    simp only [visitTree]
    exact ⟨fun k hk => hk, fun k hk => Or.inl hk⟩

theorem manualLoopBoth_keys :
    ∀ (b : PyBody) (fp : String) (vm : VisitorManagerState) (self : VState),
    (∀ k, k ∈ vmScope vm fp → k ∈ vmScope (manualLoopBoth fp vm self b).1 fp) ∧
    (∀ k, k ∈ vmScope (manualLoopBoth fp vm self b).1 fp →
      k ∈ vmScope vm fp ∨ KeyExt self.model_id k)
  | .nil, fp, vm, self => by
    simp only [manualLoopBoth]
    exact ⟨fun k hk => hk, fun k hk => Or.inl hk⟩
  | .cons child rest, fp, vm, self => by
    cases child with
    | classDef cname cbody =>
      simp only [manualLoopBoth]
      by_cases hr : (VisitorManager.has_been_processed vm fp
          (ClassIDGenerationStrategy.generate_id self.model_id cname)).1
      · rw [if_pos hr]
        have ht := manualLoopBoth_keys rest fp
          (VisitorManager.has_been_processed vm fp
            (ClassIDGenerationStrategy.generate_id self.model_id cname)).2 self
        constructor
        · intro k hk
          exact ht.1 k (mem_vmScope_has_been_processed vm fp k fp _ hk)
        · intro k hk
          rcases ht.2 k hk with hk2 | hk2
          · rcases mem_vmScope_has_been_processed_elim vm fp _ k hk2 with hk3 | hk3
            · exact Or.inl hk3
            · exact Or.inr (hk3 ▸ keyExt_class self.model_id cname)
          · exact Or.inr hk2
      · rw [if_neg hr]
        have hv := visitTree_keys (.classDef cname cbody) fp
          (VisitorManager.has_been_processed vm fp
            (ClassIDGenerationStrategy.generate_id self.model_id cname)).2 self
          (initVisitor self.model_id
            (ClassIDGenerationStrategy.generate_id self.model_id cname) BlockType.CLASS)
        have hvm := visitTree_meta (.classDef cname cbody) fp
          (VisitorManager.has_been_processed vm fp
            (ClassIDGenerationStrategy.generate_id self.model_id cname)).2 self
          (initVisitor self.model_id
            (ClassIDGenerationStrategy.generate_id self.model_id cname) BlockType.CLASS)
        have ht := manualLoopBoth_keys rest fp
          (visitTree fp (VisitorManager.has_been_processed vm fp
            (ClassIDGenerationStrategy.generate_id self.model_id cname)).2 self
            (initVisitor self.model_id
              (ClassIDGenerationStrategy.generate_id self.model_id cname)
              BlockType.CLASS) (.classDef cname cbody)).1
          (visitTree fp (VisitorManager.has_been_processed vm fp
            (ClassIDGenerationStrategy.generate_id self.model_id cname)).2 self
            (initVisitor self.model_id
              (ClassIDGenerationStrategy.generate_id self.model_id cname)
              BlockType.CLASS) (.classDef cname cbody)).2.1
        constructor
        · intro k hk
          exact ht.1 k (hv.1 k (mem_vmScope_has_been_processed vm fp k fp _ hk))
        · intro k hk
          rcases ht.2 k hk with hk2 | hk2
          · rcases hv.2 k hk2 with hk3 | hk3
            · rcases mem_vmScope_has_been_processed_elim vm fp _ k hk3 with hk4 | hk4
              · exact Or.inl hk4
              · exact Or.inr (hk4 ▸ keyExt_class self.model_id cname)
            · exact Or.inr (keyExt_trans self.model_id _ k
                (keyExt_class self.model_id cname) hk3)
          · rw [hvm.1.1] at hk2
            exact Or.inr hk2
    | functionDef cname cbody =>
      simp only [manualLoopBoth]
      by_cases hr : (VisitorManager.has_been_processed vm fp
          (FunctionIDGenerationStrategy.generate_id self.model_id cname)).1
      · rw [if_pos hr]
        have ht := manualLoopBoth_keys rest fp
          (VisitorManager.has_been_processed vm fp
            (FunctionIDGenerationStrategy.generate_id self.model_id cname)).2 self
        constructor
        · intro k hk
          exact ht.1 k (mem_vmScope_has_been_processed vm fp k fp _ hk)
        · intro k hk
          rcases ht.2 k hk with hk2 | hk2
          · rcases mem_vmScope_has_been_processed_elim vm fp _ k hk2 with hk3 | hk3
            · exact Or.inl hk3
            · exact Or.inr (hk3 ▸ keyExt_function self.model_id cname)
          · exact Or.inr hk2
      · rw [if_neg hr]
        have hv := visitTree_keys (.functionDef cname cbody) fp
          (VisitorManager.has_been_processed vm fp
            (FunctionIDGenerationStrategy.generate_id self.model_id cname)).2 self
          (initVisitor self.model_id
            (FunctionIDGenerationStrategy.generate_id self.model_id cname) BlockType.FUNCTION)
        have hvm := visitTree_meta (.functionDef cname cbody) fp
          (VisitorManager.has_been_processed vm fp
            (FunctionIDGenerationStrategy.generate_id self.model_id cname)).2 self
          (initVisitor self.model_id
            (FunctionIDGenerationStrategy.generate_id self.model_id cname) BlockType.FUNCTION)
        have ht := manualLoopBoth_keys rest fp
          (visitTree fp (VisitorManager.has_been_processed vm fp
            (FunctionIDGenerationStrategy.generate_id self.model_id cname)).2 self
            (initVisitor self.model_id
              (FunctionIDGenerationStrategy.generate_id self.model_id cname)
              BlockType.FUNCTION) (.functionDef cname cbody)).1
          (visitTree fp (VisitorManager.has_been_processed vm fp
            (FunctionIDGenerationStrategy.generate_id self.model_id cname)).2 self
            (initVisitor self.model_id
              (FunctionIDGenerationStrategy.generate_id self.model_id cname)
              BlockType.FUNCTION) (.functionDef cname cbody)).2.1
        constructor
        · intro k hk
          exact ht.1 k (hv.1 k (mem_vmScope_has_been_processed vm fp k fp _ hk))
        · intro k hk
          rcases ht.2 k hk with hk2 | hk2
          · rcases hv.2 k hk2 with hk3 | hk3
            · rcases mem_vmScope_has_been_processed_elim vm fp _ k hk3 with hk4 | hk4
              · exact Or.inl hk4
              · exact Or.inr (hk4 ▸ keyExt_function self.model_id cname)
            · exact Or.inr (keyExt_trans self.model_id _ k
                (keyExt_function self.model_id cname) hk3)
          · rw [hvm.1.1] at hk2
            exact Or.inr hk2
    | simpleStmt =>
      simp only [manualLoopBoth]
      exact manualLoopBoth_keys rest fp vm self

theorem manualLoopFunction_keys :
    ∀ (b : PyBody) (fp : String) (vm : VisitorManagerState) (self : VState),
    (∀ k, k ∈ vmScope vm fp → k ∈ vmScope (manualLoopFunction fp vm self b).1 fp) ∧
    (∀ k, k ∈ vmScope (manualLoopFunction fp vm self b).1 fp →
      k ∈ vmScope vm fp ∨ KeyExt self.model_id k)
  | .nil, fp, vm, self => by
    simp only [manualLoopFunction]
    exact ⟨fun k hk => hk, fun k hk => Or.inl hk⟩
  | .cons child rest, fp, vm, self => by
    cases child with
    | functionDef cname cbody =>
      simp only [manualLoopFunction]
      by_cases hr : (VisitorManager.has_been_processed vm fp
          (FunctionIDGenerationStrategy.generate_id self.model_id cname)).1
      · rw [if_pos hr]
        have ht := manualLoopFunction_keys rest fp
          (VisitorManager.has_been_processed vm fp
            (FunctionIDGenerationStrategy.generate_id self.model_id cname)).2 self
        constructor
        · intro k hk
          exact ht.1 k (mem_vmScope_has_been_processed vm fp k fp _ hk)
        · intro k hk
          rcases ht.2 k hk with hk2 | hk2
          · rcases mem_vmScope_has_been_processed_elim vm fp _ k hk2 with hk3 | hk3
            · exact Or.inl hk3
            · exact Or.inr (hk3 ▸ keyExt_function self.model_id cname)
          · exact Or.inr hk2
      · rw [if_neg hr]
        have hv := visitTree_keys (.functionDef cname cbody) fp
          (VisitorManager.has_been_processed vm fp
            (FunctionIDGenerationStrategy.generate_id self.model_id cname)).2 self
          (initVisitor self.model_id
            (FunctionIDGenerationStrategy.generate_id self.model_id cname) BlockType.FUNCTION)
        have hvm := visitTree_meta (.functionDef cname cbody) fp
          (VisitorManager.has_been_processed vm fp
            (FunctionIDGenerationStrategy.generate_id self.model_id cname)).2 self
          (initVisitor self.model_id
            (FunctionIDGenerationStrategy.generate_id self.model_id cname) BlockType.FUNCTION)
        have ht := manualLoopFunction_keys rest fp
          (visitTree fp (VisitorManager.has_been_processed vm fp
            (FunctionIDGenerationStrategy.generate_id self.model_id cname)).2 self
            (initVisitor self.model_id
              (FunctionIDGenerationStrategy.generate_id self.model_id cname)
              BlockType.FUNCTION) (.functionDef cname cbody)).1
          (visitTree fp (VisitorManager.has_been_processed vm fp
            (FunctionIDGenerationStrategy.generate_id self.model_id cname)).2 self
            (initVisitor self.model_id
              (FunctionIDGenerationStrategy.generate_id self.model_id cname)
              BlockType.FUNCTION) (.functionDef cname cbody)).2.1
        constructor
        · intro k hk
          exact ht.1 k (hv.1 k (mem_vmScope_has_been_processed vm fp k fp _ hk))
        · intro k hk
          rcases ht.2 k hk with hk2 | hk2
          · rcases hv.2 k hk2 with hk3 | hk3
            · rcases mem_vmScope_has_been_processed_elim vm fp _ k hk3 with hk4 | hk4
              · exact Or.inl hk4
              · exact Or.inr (hk4 ▸ keyExt_function self.model_id cname)
            · exact Or.inr (keyExt_trans self.model_id _ k
                (keyExt_function self.model_id cname) hk3)
          · rw [hvm.1.1] at hk2
            exact Or.inr hk2
    | classDef cname cbody =>
      simp only [manualLoopFunction]
      exact manualLoopFunction_keys rest fp vm self
    | simpleStmt =>
      simp only [manualLoopFunction]
      exact manualLoopFunction_keys rest fp vm self

theorem descendBody_keys :
    ∀ (b : PyBody) (fp : String) (vm : VisitorManagerState) (parent self : VState),
    (∀ k, k ∈ vmScope vm fp → k ∈ vmScope (descendBody fp vm parent self b).1 fp) ∧
    (∀ k, k ∈ vmScope (descendBody fp vm parent self b).1 fp →
      k ∈ vmScope vm fp ∨ KeyExt self.model_id k)
  | .nil, fp, vm, parent, self => by
    simp only [descendBody]
    exact ⟨fun k hk => hk, fun k hk => Or.inl hk⟩
  | .cons hd tl, fp, vm, parent, self => by
    simp only [descendBody]
    have hv := visitTree_keys hd fp vm parent self
    have hvm := visitTree_meta hd fp vm parent self
    have ht := descendBody_keys tl fp (visitTree fp vm parent self hd).1
      (visitTree fp vm parent self hd).2.1 (visitTree fp vm parent self hd).2.2
    constructor
    · intro k hk
      exact ht.1 k (hv.1 k hk)
    · intro k hk
      rcases ht.2 k hk with hk2 | hk2
      · exact hv.2 k hk2
      · rw [hvm.2.1] at hk2
        exact Or.inr hk2
end

theorem leaveDispatch_parentStep (parent self : VState) :
    ParentStep self.model_id self.parent_id self.block_type parent
      (leaveDispatch parent self).1 := by
  unfold ParentStep
  simp only [leaveDispatch]
  split
  · exact Or.inl rfl
  · next hg => exact Or.inr ⟨hg, self.builder_children ++ self.children, rfl⟩

theorem leaveDispatch_mem_cis (parent self : VState) (h : self.model_id ≠ "") :
    self.model_id ∈ ((leaveDispatch parent self).1).children_ids_set := by
  simp only [leaveDispatch]
  split
  · next hg => exact hg
  · next hg =>
    show self.model_id ∈ (addChildToParent parent _).children_ids_set
    simp only [addChildToParent, Model.id]
    rw [if_pos h]
    exact List.mem_append_right _ (List.mem_singleton.mpr rfl)

theorem addChildToParent_cis (p : VState) (m : Model) (h : m.id ≠ "") :
    (addChildToParent p m).children_ids_set = p.children_ids_set ++ [m.id] := by
  simp only [addChildToParent]
  rw [if_pos h]

theorem parentStep_trans (i : String) (pid : Option String) (bt : BlockType) (p q r : VState)
    (hi : i ≠ "") (h1 : ParentStep i pid bt p q) (h2 : ParentStep i pid bt q r) :
    ParentStep i pid bt p r := by
  rcases h2 with h2 | ⟨hnq, ch, hr⟩
  · exact h2 ▸ h1
  · rcases h1 with h1 | ⟨hnp, ch', hq⟩
    · exact Or.inr ⟨h1 ▸ hnq, ch, h1 ▸ hr⟩
    · exfalso
      apply hnq
      rw [hq, addChildToParent_cis p (Model.mk i pid bt ch') hi]
      exact List.mem_append_right _ (List.mem_singleton.mpr rfl)

mutual
theorem visitTree_attach :
    ∀ (n : PyNode) (fp : String) (vm : VisitorManagerState) (parent self : VState),
    self.model_id ≠ "" →
    ParentStep self.model_id self.parent_id self.block_type parent
      (visitTree fp vm parent self n).2.1
  | .classDef name body, fp, vm, parent, self, hi => by
    cases hbt : self.block_type with
    | CLASS =>
      simp only [visitTree, hbt]
      by_cases hr : (VisitorManager.has_been_processed vm fp
          (ClassIDGenerationStrategy.generate_id self.model_id name)).1
      · rw [if_pos hr]
        have hdm := descendBody_meta body fp
          (VisitorManager.has_been_processed vm fp
            (ClassIDGenerationStrategy.generate_id self.model_id name)).2 parent self
        have hbt2 : ((descendBody fp
            (VisitorManager.has_been_processed vm fp
              (ClassIDGenerationStrategy.generate_id self.model_id name)).2
            parent self body).2.2).block_type = BlockType.CLASS := hdm.2.2.2.trans hbt
        rw [hbt2]
        have hd := descendBody_attach body fp
          (VisitorManager.has_been_processed vm fp
            (ClassIDGenerationStrategy.generate_id self.model_id name)).2 parent self hi
        have hl := leaveDispatch_parentStep (descendBody fp
            (VisitorManager.has_been_processed vm fp
              (ClassIDGenerationStrategy.generate_id self.model_id name)).2
            parent self body).2.1 (descendBody fp
            (VisitorManager.has_been_processed vm fp
              (ClassIDGenerationStrategy.generate_id self.model_id name)).2
            parent self body).2.2
        rw [hdm.2.1, hdm.2.2.1, hdm.2.2.2] at hl
        rw [hbt] at hd hl
        exact parentStep_trans self.model_id self.parent_id BlockType.CLASS parent _ _ hi hd hl
      · rw [if_neg hr]
        have hmm := manualLoopBoth_meta body fp
          (VisitorManager.has_been_processed vm fp
            (ClassIDGenerationStrategy.generate_id self.model_id name)).2 self
        have hdm := descendBody_meta body fp
          (manualLoopBoth fp (VisitorManager.has_been_processed vm fp
            (ClassIDGenerationStrategy.generate_id self.model_id name)).2 self body).1 parent
          (manualLoopBoth fp (VisitorManager.has_been_processed vm fp
            (ClassIDGenerationStrategy.generate_id self.model_id name)).2 self body).2
        have hbt2 : ((descendBody fp
            (manualLoopBoth fp (VisitorManager.has_been_processed vm fp
              (ClassIDGenerationStrategy.generate_id self.model_id name)).2 self body).1 parent
            (manualLoopBoth fp (VisitorManager.has_been_processed vm fp
              (ClassIDGenerationStrategy.generate_id self.model_id name)).2 self body).2
            body).2.2).block_type = BlockType.CLASS :=
          (hdm.2.2.2.trans hmm.2.2).trans hbt
        rw [hbt2]
        have hd := descendBody_attach body fp
          (manualLoopBoth fp (VisitorManager.has_been_processed vm fp
            (ClassIDGenerationStrategy.generate_id self.model_id name)).2 self body).1 parent
          (manualLoopBoth fp (VisitorManager.has_been_processed vm fp
            (ClassIDGenerationStrategy.generate_id self.model_id name)).2 self body).2
          (by rw [hmm.1]; exact hi)
        rw [hmm.1, hmm.2.1, hmm.2.2] at hd
        have hl := leaveDispatch_parentStep (descendBody fp
            (manualLoopBoth fp (VisitorManager.has_been_processed vm fp
              (ClassIDGenerationStrategy.generate_id self.model_id name)).2 self body).1 parent
            (manualLoopBoth fp (VisitorManager.has_been_processed vm fp
              (ClassIDGenerationStrategy.generate_id self.model_id name)).2 self body).2
            body).2.1 (descendBody fp
            (manualLoopBoth fp (VisitorManager.has_been_processed vm fp
              (ClassIDGenerationStrategy.generate_id self.model_id name)).2 self body).1 parent
            (manualLoopBoth fp (VisitorManager.has_been_processed vm fp
              (ClassIDGenerationStrategy.generate_id self.model_id name)).2 self body).2
            body).2.2
        rw [hdm.2.1, hdm.2.2.1, hdm.2.2.2, hmm.1, hmm.2.1, hmm.2.2] at hl
        rw [hbt] at hd hl
        exact parentStep_trans self.model_id self.parent_id BlockType.CLASS parent _ _ hi hd hl
    | FUNCTION =>
      simp only [visitTree, hbt]
      have hdm := descendBody_meta body fp vm parent self
      have hbt2 : ((descendBody fp vm parent self body).2.2).block_type =
          BlockType.FUNCTION := hdm.2.2.2.trans hbt
      rw [hbt2]
      have hd := descendBody_attach body fp vm parent self hi
      rw [hbt] at hd
      exact hd
    | MODULE =>
      simp only [visitTree, hbt]
      have hdm := descendBody_meta body fp vm parent self
      have hbt2 : ((descendBody fp vm parent self body).2.2).block_type =
          BlockType.MODULE := hdm.2.2.2.trans hbt
      rw [hbt2]
      have hd := descendBody_attach body fp vm parent self hi
      rw [hbt] at hd
      exact hd
    | STANDALONE_CODE_BLOCK =>
      simp only [visitTree, hbt]
      have hdm := descendBody_meta body fp vm parent self
      have hbt2 : ((descendBody fp vm parent self body).2.2).block_type =
          BlockType.STANDALONE_CODE_BLOCK := hdm.2.2.2.trans hbt
      rw [hbt2]
      have hd := descendBody_attach body fp vm parent self hi
      rw [hbt] at hd
      exact hd
    | IMPORT_BLOCK =>
      simp only [visitTree, hbt]
      have hdm := descendBody_meta body fp vm parent self
      have hbt2 : ((descendBody fp vm parent self body).2.2).block_type =
          BlockType.IMPORT_BLOCK := hdm.2.2.2.trans hbt
      rw [hbt2]
      have hd := descendBody_attach body fp vm parent self hi
      rw [hbt] at hd
      exact hd
  | .functionDef name body, fp, vm, parent, self, hi => by
    cases hbt : self.block_type with
    | FUNCTION =>
      simp only [visitTree, hbt]
      by_cases hr : (VisitorManager.has_been_processed vm fp
          (FunctionIDGenerationStrategy.generate_id self.model_id name)).1
      · rw [if_pos hr]
        have hdm := descendBody_meta body fp
          (VisitorManager.has_been_processed vm fp
            (FunctionIDGenerationStrategy.generate_id self.model_id name)).2 parent self
        have hbt2 : ((descendBody fp
            (VisitorManager.has_been_processed vm fp
              (FunctionIDGenerationStrategy.generate_id self.model_id name)).2
            parent self body).2.2).block_type = BlockType.FUNCTION := hdm.2.2.2.trans hbt
        rw [hbt2]
        have hd := descendBody_attach body fp
          (VisitorManager.has_been_processed vm fp
            (FunctionIDGenerationStrategy.generate_id self.model_id name)).2 parent self hi
        have hl := leaveDispatch_parentStep (descendBody fp
            (VisitorManager.has_been_processed vm fp
              (FunctionIDGenerationStrategy.generate_id self.model_id name)).2
            parent self body).2.1 (descendBody fp
            (VisitorManager.has_been_processed vm fp
              (FunctionIDGenerationStrategy.generate_id self.model_id name)).2
            parent self body).2.2
        rw [hdm.2.1, hdm.2.2.1, hdm.2.2.2] at hl
        rw [hbt] at hd hl
        exact parentStep_trans self.model_id self.parent_id BlockType.FUNCTION parent _ _
          hi hd hl
      · rw [if_neg hr]
        have hmm := manualLoopFunction_meta body fp
          (VisitorManager.has_been_processed vm fp
            (FunctionIDGenerationStrategy.generate_id self.model_id name)).2 self
        have hdm := descendBody_meta body fp
          (manualLoopFunction fp (VisitorManager.has_been_processed vm fp
            (FunctionIDGenerationStrategy.generate_id self.model_id name)).2 self body).1 parent
          (manualLoopFunction fp (VisitorManager.has_been_processed vm fp
            (FunctionIDGenerationStrategy.generate_id self.model_id name)).2 self body).2
        have hbt2 : ((descendBody fp
            (manualLoopFunction fp (VisitorManager.has_been_processed vm fp
              (FunctionIDGenerationStrategy.generate_id self.model_id name)).2 self body).1
            parent
            (manualLoopFunction fp (VisitorManager.has_been_processed vm fp
              (FunctionIDGenerationStrategy.generate_id self.model_id name)).2 self body).2
            body).2.2).block_type = BlockType.FUNCTION :=
          (hdm.2.2.2.trans hmm.2.2).trans hbt
        rw [hbt2]
        have hd := descendBody_attach body fp
          (manualLoopFunction fp (VisitorManager.has_been_processed vm fp
            (FunctionIDGenerationStrategy.generate_id self.model_id name)).2 self body).1 parent
          (manualLoopFunction fp (VisitorManager.has_been_processed vm fp
            (FunctionIDGenerationStrategy.generate_id self.model_id name)).2 self body).2
          (by rw [hmm.1]; exact hi)
        rw [hmm.1, hmm.2.1, hmm.2.2] at hd
        have hl := leaveDispatch_parentStep (descendBody fp
            (manualLoopFunction fp (VisitorManager.has_been_processed vm fp
              (FunctionIDGenerationStrategy.generate_id self.model_id name)).2 self body).1
            parent
            (manualLoopFunction fp (VisitorManager.has_been_processed vm fp
              (FunctionIDGenerationStrategy.generate_id self.model_id name)).2 self body).2
            body).2.1 (descendBody fp
            (manualLoopFunction fp (VisitorManager.has_been_processed vm fp
              (FunctionIDGenerationStrategy.generate_id self.model_id name)).2 self body).1
            parent
            (manualLoopFunction fp (VisitorManager.has_been_processed vm fp
              (FunctionIDGenerationStrategy.generate_id self.model_id name)).2 self body).2
            body).2.2
        rw [hdm.2.1, hdm.2.2.1, hdm.2.2.2, hmm.1, hmm.2.1, hmm.2.2] at hl
        rw [hbt] at hd hl
        exact parentStep_trans self.model_id self.parent_id BlockType.FUNCTION parent _ _
          hi hd hl
    | CLASS =>
      simp only [visitTree, hbt]
      have hdm := descendBody_meta body fp vm parent self
      have hbt2 : ((descendBody fp vm parent self body).2.2).block_type =
          BlockType.CLASS := hdm.2.2.2.trans hbt
      rw [hbt2]
      have hd := descendBody_attach body fp vm parent self hi
      rw [hbt] at hd
      exact hd
    | MODULE =>
      simp only [visitTree, hbt]
      have hdm := descendBody_meta body fp vm parent self
      have hbt2 : ((descendBody fp vm parent self body).2.2).block_type =
          BlockType.MODULE := hdm.2.2.2.trans hbt
      rw [hbt2]
      have hd := descendBody_attach body fp vm parent self hi
      rw [hbt] at hd
      exact hd
    | STANDALONE_CODE_BLOCK =>
      simp only [visitTree, hbt]
      have hdm := descendBody_meta body fp vm parent self
      have hbt2 : ((descendBody fp vm parent self body).2.2).block_type =
          BlockType.STANDALONE_CODE_BLOCK := hdm.2.2.2.trans hbt
      rw [hbt2]
      have hd := descendBody_attach body fp vm parent self hi
      rw [hbt] at hd
      exact hd
    | IMPORT_BLOCK =>
      simp only [visitTree, hbt]
      have hdm := descendBody_meta body fp vm parent self
      have hbt2 : ((descendBody fp vm parent self body).2.2).block_type =
          BlockType.IMPORT_BLOCK := hdm.2.2.2.trans hbt
      rw [hbt2]
      have hd := descendBody_attach body fp vm parent self hi
      rw [hbt] at hd
      exact hd
  | .simpleStmt, fp, vm, parent, self, hi => by
    simp only [visitTree]
    exact Or.inl rfl

theorem descendBody_attach :
    ∀ (b : PyBody) (fp : String) (vm : VisitorManagerState) (parent self : VState),
    self.model_id ≠ "" →
    ParentStep self.model_id self.parent_id self.block_type parent
      (descendBody fp vm parent self b).2.1
  | .nil, fp, vm, parent, self, hi => by
    simp only [descendBody]
    exact Or.inl rfl
  | .cons hd tl, fp, vm, parent, self, hi => by
    simp only [descendBody]
    have hvm := visitTree_meta hd fp vm parent self
    have hv := visitTree_attach hd fp vm parent self hi
    have ht := descendBody_attach tl fp (visitTree fp vm parent self hd).1
      (visitTree fp vm parent self hd).2.1 (visitTree fp vm parent self hd).2.2
      (by rw [hvm.2.1]; exact hi)
    rw [hvm.2.1, hvm.2.2.1, hvm.2.2.2] at ht
    exact parentStep_trans self.model_id self.parent_id self.block_type parent _ _ hi hv ht
end

theorem visitTree_attach_complete (n : PyNode) (fp : String) (vm : VisitorManagerState)
    (parent self : VState) (hroot : rootMatches self.block_type n)
    (hi : self.model_id ≠ "") :
    self.model_id ∈ ((visitTree fp vm parent self n).2.1).children_ids_set := by
  cases n with
  | simpleStmt => exact absurd hroot (by simp [rootMatches])
  | classDef name body =>
    have hbt : self.block_type = BlockType.CLASS := hroot
    simp only [visitTree, hbt]
    by_cases hr : (VisitorManager.has_been_processed vm fp
        (ClassIDGenerationStrategy.generate_id self.model_id name)).1
    · rw [if_pos hr]
      have hdm := descendBody_meta body fp
        (VisitorManager.has_been_processed vm fp
          (ClassIDGenerationStrategy.generate_id self.model_id name)).2 parent self
      have hbt2 : ((descendBody fp
          (VisitorManager.has_been_processed vm fp
            (ClassIDGenerationStrategy.generate_id self.model_id name)).2
          parent self body).2.2).block_type = BlockType.CLASS := hdm.2.2.2.trans hbt
      rw [hbt2]
      have hm := leaveDispatch_mem_cis (descendBody fp
          (VisitorManager.has_been_processed vm fp
            (ClassIDGenerationStrategy.generate_id self.model_id name)).2
          parent self body).2.1 (descendBody fp
          (VisitorManager.has_been_processed vm fp
            (ClassIDGenerationStrategy.generate_id self.model_id name)).2
          parent self body).2.2 (by rw [hdm.2.1]; exact hi)
      rw [hdm.2.1] at hm
      exact hm
    · rw [if_neg hr]
      have hmm := manualLoopBoth_meta body fp
        (VisitorManager.has_been_processed vm fp
          (ClassIDGenerationStrategy.generate_id self.model_id name)).2 self
      have hdm := descendBody_meta body fp
        (manualLoopBoth fp (VisitorManager.has_been_processed vm fp
          (ClassIDGenerationStrategy.generate_id self.model_id name)).2 self body).1 parent
        (manualLoopBoth fp (VisitorManager.has_been_processed vm fp
          (ClassIDGenerationStrategy.generate_id self.model_id name)).2 self body).2
      have hbt2 : ((descendBody fp
          (manualLoopBoth fp (VisitorManager.has_been_processed vm fp
            (ClassIDGenerationStrategy.generate_id self.model_id name)).2 self body).1 parent
          (manualLoopBoth fp (VisitorManager.has_been_processed vm fp
            (ClassIDGenerationStrategy.generate_id self.model_id name)).2 self body).2
          body).2.2).block_type = BlockType.CLASS :=
        (hdm.2.2.2.trans hmm.2.2).trans hbt
      rw [hbt2]
      have hm := leaveDispatch_mem_cis (descendBody fp
          (manualLoopBoth fp (VisitorManager.has_been_processed vm fp
            (ClassIDGenerationStrategy.generate_id self.model_id name)).2 self body).1 parent
          (manualLoopBoth fp (VisitorManager.has_been_processed vm fp
            (ClassIDGenerationStrategy.generate_id self.model_id name)).2 self body).2
          body).2.1 (descendBody fp
          (manualLoopBoth fp (VisitorManager.has_been_processed vm fp
            (ClassIDGenerationStrategy.generate_id self.model_id name)).2 self body).1 parent
          (manualLoopBoth fp (VisitorManager.has_been_processed vm fp
            (ClassIDGenerationStrategy.generate_id self.model_id name)).2 self body).2
          body).2.2 (by rw [hdm.2.1, hmm.1]; exact hi)
      rw [hdm.2.1, hmm.1] at hm
      exact hm
  | functionDef name body =>
    have hbt : self.block_type = BlockType.FUNCTION := hroot
    simp only [visitTree, hbt]
    by_cases hr : (VisitorManager.has_been_processed vm fp
        (FunctionIDGenerationStrategy.generate_id self.model_id name)).1
    · rw [if_pos hr]
      have hdm := descendBody_meta body fp
        (VisitorManager.has_been_processed vm fp
          (FunctionIDGenerationStrategy.generate_id self.model_id name)).2 parent self
      have hbt2 : ((descendBody fp
          (VisitorManager.has_been_processed vm fp
            (FunctionIDGenerationStrategy.generate_id self.model_id name)).2
          parent self body).2.2).block_type = BlockType.FUNCTION := hdm.2.2.2.trans hbt
      rw [hbt2]
      have hm := leaveDispatch_mem_cis (descendBody fp
          (VisitorManager.has_been_processed vm fp
            (FunctionIDGenerationStrategy.generate_id self.model_id name)).2
          parent self body).2.1 (descendBody fp
          (VisitorManager.has_been_processed vm fp
            (FunctionIDGenerationStrategy.generate_id self.model_id name)).2
          parent self body).2.2 (by rw [hdm.2.1]; exact hi)
      rw [hdm.2.1] at hm
      exact hm
    · rw [if_neg hr]
      have hmm := manualLoopFunction_meta body fp
        (VisitorManager.has_been_processed vm fp
          (FunctionIDGenerationStrategy.generate_id self.model_id name)).2 self
      have hdm := descendBody_meta body fp
        (manualLoopFunction fp (VisitorManager.has_been_processed vm fp
          (FunctionIDGenerationStrategy.generate_id self.model_id name)).2 self body).1 parent
        (manualLoopFunction fp (VisitorManager.has_been_processed vm fp
          (FunctionIDGenerationStrategy.generate_id self.model_id name)).2 self body).2
      have hbt2 : ((descendBody fp
          (manualLoopFunction fp (VisitorManager.has_been_processed vm fp
            (FunctionIDGenerationStrategy.generate_id self.model_id name)).2 self body).1
          parent
          (manualLoopFunction fp (VisitorManager.has_been_processed vm fp
            (FunctionIDGenerationStrategy.generate_id self.model_id name)).2 self body).2
          body).2.2).block_type = BlockType.FUNCTION :=
        (hdm.2.2.2.trans hmm.2.2).trans hbt
      rw [hbt2]
      have hm := leaveDispatch_mem_cis (descendBody fp
          (manualLoopFunction fp (VisitorManager.has_been_processed vm fp
            (FunctionIDGenerationStrategy.generate_id self.model_id name)).2 self body).1
          parent
          (manualLoopFunction fp (VisitorManager.has_been_processed vm fp
            (FunctionIDGenerationStrategy.generate_id self.model_id name)).2 self body).2
          body).2.1 (descendBody fp
          (manualLoopFunction fp (VisitorManager.has_been_processed vm fp
            (FunctionIDGenerationStrategy.generate_id self.model_id name)).2 self body).1
          parent
          (manualLoopFunction fp (VisitorManager.has_been_processed vm fp
            (FunctionIDGenerationStrategy.generate_id self.model_id name)).2 self body).2
          body).2.2 (by rw [hdm.2.1, hmm.1]; exact hi)
      rw [hdm.2.1, hmm.1] at hm
      exact hm

theorem initVisitor_good (p i : String) (bt : BlockType) : VGood (initVisitor p i bt) := by
  unfold VGood initVisitor
  exact ⟨fun _ => by simp, fun m hm => absurd hm (List.not_mem_nil m),
    fun m hm => absurd hm (List.not_mem_nil m)⟩

theorem leaveDispatch_good (parent self : VState)
    (hbt : self.block_type = BlockType.CLASS ∨ self.block_type = BlockType.FUNCTION)
    (hp : VGood parent) (hs : VGood self) :
    VGood (leaveDispatch parent self).1 ∧ VGood (leaveDispatch parent self).2 := by
  have hpid : self.parent_id ≠ none := hs.1 hbt
  obtain ⟨pid, hpid2⟩ := Option.ne_none_iff_exists'.mp hpid
  have hself2 : VGood
      { self with builder_children := self.builder_children ++ self.children } := by
    refine ⟨hs.1, hs.2.1, ?_⟩
    intro m hm
    rcases List.mem_append.mp hm with h | h
    · exact hs.2.2 m h
    · exact hs.2.1 m h
  have hparented : Model.Parented (Model.mk self.model_id self.parent_id self.block_type
      (self.builder_children ++ self.children)) := by
    rw [hpid2]
    refine Model.Parented.intro _ _ _ _ ?_
    intro m hm
    rcases List.mem_append.mp hm with h | h
    · exact hs.2.2 m h
    · exact hs.2.1 m h
  simp only [leaveDispatch]
  split
  · exact ⟨hp, hself2⟩
  · refine ⟨⟨hp.1, ?_, hp.2.2⟩, hself2⟩
    intro m hm
    rcases List.mem_append.mp hm with h | h
    · exact hp.2.1 m h
    · rw [List.mem_singleton.mp h]
      exact hparented

mutual
theorem visitTree_good :
    ∀ (n : PyNode) (fp : String) (vm : VisitorManagerState) (parent self : VState),
    VGood parent → VGood self →
    VGood (visitTree fp vm parent self n).2.1 ∧ VGood (visitTree fp vm parent self n).2.2
  | .classDef name body, fp, vm, parent, self, hp, hs => by
    cases hbt : self.block_type with
    | CLASS =>
      simp only [visitTree, hbt]
      by_cases hr : (VisitorManager.has_been_processed vm fp
          (ClassIDGenerationStrategy.generate_id self.model_id name)).1
      · rw [if_pos hr]
        have hdm := descendBody_meta body fp
          (VisitorManager.has_been_processed vm fp
            (ClassIDGenerationStrategy.generate_id self.model_id name)).2 parent self
        have hbt2 : ((descendBody fp
            (VisitorManager.has_been_processed vm fp
              (ClassIDGenerationStrategy.generate_id self.model_id name)).2
            parent self body).2.2).block_type = BlockType.CLASS := hdm.2.2.2.trans hbt
        rw [hbt2]
        have hd := descendBody_good body fp
          (VisitorManager.has_been_processed vm fp
            (ClassIDGenerationStrategy.generate_id self.model_id name)).2 parent self hp hs
        exact leaveDispatch_good _ _ (Or.inl hbt2) hd.1 hd.2
      · rw [if_neg hr]
        have hmm := manualLoopBoth_meta body fp
          (VisitorManager.has_been_processed vm fp
            (ClassIDGenerationStrategy.generate_id self.model_id name)).2 self
        have hml := manualLoopBoth_good body fp
          (VisitorManager.has_been_processed vm fp
            (ClassIDGenerationStrategy.generate_id self.model_id name)).2 self hs
        have hdm := descendBody_meta body fp
          (manualLoopBoth fp (VisitorManager.has_been_processed vm fp
            (ClassIDGenerationStrategy.generate_id self.model_id name)).2 self body).1 parent
          (manualLoopBoth fp (VisitorManager.has_been_processed vm fp
            (ClassIDGenerationStrategy.generate_id self.model_id name)).2 self body).2
        have hbt2 : ((descendBody fp
            (manualLoopBoth fp (VisitorManager.has_been_processed vm fp
              (ClassIDGenerationStrategy.generate_id self.model_id name)).2 self body).1 parent
            (manualLoopBoth fp (VisitorManager.has_been_processed vm fp
              (ClassIDGenerationStrategy.generate_id self.model_id name)).2 self body).2
            body).2.2).block_type = BlockType.CLASS :=
          (hdm.2.2.2.trans hmm.2.2).trans hbt
        rw [hbt2]
        have hd := descendBody_good body fp
          (manualLoopBoth fp (VisitorManager.has_been_processed vm fp
            (ClassIDGenerationStrategy.generate_id self.model_id name)).2 self body).1 parent
          (manualLoopBoth fp (VisitorManager.has_been_processed vm fp
            (ClassIDGenerationStrategy.generate_id self.model_id name)).2 self body).2 hp hml
        exact leaveDispatch_good _ _ (Or.inl hbt2) hd.1 hd.2
    | FUNCTION =>
      simp only [visitTree, hbt]
      have hdm := descendBody_meta body fp vm parent self
      have hbt2 : ((descendBody fp vm parent self body).2.2).block_type =
          BlockType.FUNCTION := hdm.2.2.2.trans hbt
      rw [hbt2]
      exact descendBody_good body fp vm parent self hp hs
    | MODULE =>
      simp only [visitTree, hbt]
      have hdm := descendBody_meta body fp vm parent self
      have hbt2 : ((descendBody fp vm parent self body).2.2).block_type =
          BlockType.MODULE := hdm.2.2.2.trans hbt
      rw [hbt2]
      exact descendBody_good body fp vm parent self hp hs
    | STANDALONE_CODE_BLOCK =>
      simp only [visitTree, hbt]
      have hdm := descendBody_meta body fp vm parent self
      have hbt2 : ((descendBody fp vm parent self body).2.2).block_type =
          BlockType.STANDALONE_CODE_BLOCK := hdm.2.2.2.trans hbt
      rw [hbt2]
      exact descendBody_good body fp vm parent self hp hs
    | IMPORT_BLOCK =>
      simp only [visitTree, hbt]
      have hdm := descendBody_meta body fp vm parent self
      have hbt2 : ((descendBody fp vm parent self body).2.2).block_type =
          BlockType.IMPORT_BLOCK := hdm.2.2.2.trans hbt
      rw [hbt2]
      exact descendBody_good body fp vm parent self hp hs
  | .functionDef name body, fp, vm, parent, self, hp, hs => by
    cases hbt : self.block_type with
    | FUNCTION =>
      simp only [visitTree, hbt]
      by_cases hr : (VisitorManager.has_been_processed vm fp
          (FunctionIDGenerationStrategy.generate_id self.model_id name)).1
      · rw [if_pos hr]
        have hdm := descendBody_meta body fp
          (VisitorManager.has_been_processed vm fp
            (FunctionIDGenerationStrategy.generate_id self.model_id name)).2 parent self
        have hbt2 : ((descendBody fp
            (VisitorManager.has_been_processed vm fp
              (FunctionIDGenerationStrategy.generate_id self.model_id name)).2
            parent self body).2.2).block_type = BlockType.FUNCTION := hdm.2.2.2.trans hbt
        rw [hbt2]
        have hd := descendBody_good body fp
          (VisitorManager.has_been_processed vm fp
            (FunctionIDGenerationStrategy.generate_id self.model_id name)).2 parent self hp hs
        exact leaveDispatch_good _ _ (Or.inr hbt2) hd.1 hd.2
      · rw [if_neg hr]
        have hmm := manualLoopFunction_meta body fp
          (VisitorManager.has_been_processed vm fp
            (FunctionIDGenerationStrategy.generate_id self.model_id name)).2 self
        have hml := manualLoopFunction_good body fp
          (VisitorManager.has_been_processed vm fp
            (FunctionIDGenerationStrategy.generate_id self.model_id name)).2 self hs
        have hdm := descendBody_meta body fp
          (manualLoopFunction fp (VisitorManager.has_been_processed vm fp
            (FunctionIDGenerationStrategy.generate_id self.model_id name)).2 self body).1 parent
          (manualLoopFunction fp (VisitorManager.has_been_processed vm fp
            (FunctionIDGenerationStrategy.generate_id self.model_id name)).2 self body).2
        have hbt2 : ((descendBody fp
            (manualLoopFunction fp (VisitorManager.has_been_processed vm fp
              (FunctionIDGenerationStrategy.generate_id self.model_id name)).2 self body).1
            parent
            (manualLoopFunction fp (VisitorManager.has_been_processed vm fp
              (FunctionIDGenerationStrategy.generate_id self.model_id name)).2 self body).2
            body).2.2).block_type = BlockType.FUNCTION :=
          (hdm.2.2.2.trans hmm.2.2).trans hbt
        rw [hbt2]
        have hd := descendBody_good body fp
          (manualLoopFunction fp (VisitorManager.has_been_processed vm fp
            (FunctionIDGenerationStrategy.generate_id self.model_id name)).2 self body).1
          parent
          (manualLoopFunction fp (VisitorManager.has_been_processed vm fp
            (FunctionIDGenerationStrategy.generate_id self.model_id name)).2 self body).2 hp hml
        exact leaveDispatch_good _ _ (Or.inr hbt2) hd.1 hd.2
    | CLASS =>
      simp only [visitTree, hbt]
      have hdm := descendBody_meta body fp vm parent self
      have hbt2 : ((descendBody fp vm parent self body).2.2).block_type =
          BlockType.CLASS := hdm.2.2.2.trans hbt
      rw [hbt2]
      exact descendBody_good body fp vm parent self hp hs
    | MODULE =>
      simp only [visitTree, hbt]
      have hdm := descendBody_meta body fp vm parent self
      have hbt2 : ((descendBody fp vm parent self body).2.2).block_type =
          BlockType.MODULE := hdm.2.2.2.trans hbt
      rw [hbt2]
      exact descendBody_good body fp vm parent self hp hs
    | STANDALONE_CODE_BLOCK =>
      simp only [visitTree, hbt]
      have hdm := descendBody_meta body fp vm parent self
      have hbt2 : ((descendBody fp vm parent self body).2.2).block_type =
          BlockType.STANDALONE_CODE_BLOCK := hdm.2.2.2.trans hbt
      rw [hbt2]
      exact descendBody_good body fp vm parent self hp hs
    | IMPORT_BLOCK =>
      simp only [visitTree, hbt]
      have hdm := descendBody_meta body fp vm parent self
      have hbt2 : ((descendBody fp vm parent self body).2.2).block_type =
          BlockType.IMPORT_BLOCK := hdm.2.2.2.trans hbt
      rw [hbt2]
      exact descendBody_good body fp vm parent self hp hs
  | .simpleStmt, fp, vm, parent, self, hp, hs => by
    simp only [visitTree]
    exact ⟨hp, hs⟩

theorem manualLoopBoth_good :
    ∀ (b : PyBody) (fp : String) (vm : VisitorManagerState) (self : VState),
    VGood self → VGood (manualLoopBoth fp vm self b).2
  | .nil, fp, vm, self, hs => by
    simp only [manualLoopBoth]
    exact hs
  | .cons child rest, fp, vm, self, hs => by
    cases child with
    | classDef cname cbody =>
      simp only [manualLoopBoth]
      by_cases hr : (VisitorManager.has_been_processed vm fp
          (ClassIDGenerationStrategy.generate_id self.model_id cname)).1
      · rw [if_pos hr]
        exact manualLoopBoth_good rest fp _ self hs
      · rw [if_neg hr]
        have hv := visitTree_good (.classDef cname cbody) fp
          (VisitorManager.has_been_processed vm fp
            (ClassIDGenerationStrategy.generate_id self.model_id cname)).2 self
          (initVisitor self.model_id
            (ClassIDGenerationStrategy.generate_id self.model_id cname) BlockType.CLASS)
          hs (initVisitor_good _ _ _)
        exact manualLoopBoth_good rest fp _ _ hv.1
    | functionDef cname cbody =>
      simp only [manualLoopBoth]
      by_cases hr : (VisitorManager.has_been_processed vm fp
          (FunctionIDGenerationStrategy.generate_id self.model_id cname)).1
      · rw [if_pos hr]
        exact manualLoopBoth_good rest fp _ self hs
      · rw [if_neg hr]
        have hv := visitTree_good (.functionDef cname cbody) fp
          (VisitorManager.has_been_processed vm fp
            (FunctionIDGenerationStrategy.generate_id self.model_id cname)).2 self
          (initVisitor self.model_id
            (FunctionIDGenerationStrategy.generate_id self.model_id cname) BlockType.FUNCTION)
          hs (initVisitor_good _ _ _)
        exact manualLoopBoth_good rest fp _ _ hv.1
    | simpleStmt =>
      simp only [manualLoopBoth]
      exact manualLoopBoth_good rest fp vm self hs

theorem manualLoopFunction_good :
    ∀ (b : PyBody) (fp : String) (vm : VisitorManagerState) (self : VState),
    VGood self → VGood (manualLoopFunction fp vm self b).2
  | .nil, fp, vm, self, hs => by
    simp only [manualLoopFunction]
    exact hs
  | .cons child rest, fp, vm, self, hs => by
    cases child with
    | functionDef cname cbody =>
      simp only [manualLoopFunction]
      by_cases hr : (VisitorManager.has_been_processed vm fp
          (FunctionIDGenerationStrategy.generate_id self.model_id cname)).1
      · rw [if_pos hr]
        exact manualLoopFunction_good rest fp _ self hs
      · rw [if_neg hr]
        have hv := visitTree_good (.functionDef cname cbody) fp
          (VisitorManager.has_been_processed vm fp
            (FunctionIDGenerationStrategy.generate_id self.model_id cname)).2 self
          (initVisitor self.model_id
            (FunctionIDGenerationStrategy.generate_id self.model_id cname) BlockType.FUNCTION)
          hs (initVisitor_good _ _ _)
        exact manualLoopFunction_good rest fp _ _ hv.1
    | classDef cname cbody =>
      simp only [manualLoopFunction]
      exact manualLoopFunction_good rest fp vm self hs
    | simpleStmt =>
      simp only [manualLoopFunction]
      exact manualLoopFunction_good rest fp vm self hs

theorem descendBody_good :
    ∀ (b : PyBody) (fp : String) (vm : VisitorManagerState) (parent self : VState),
    VGood parent → VGood self →
    VGood (descendBody fp vm parent self b).2.1 ∧ VGood (descendBody fp vm parent self b).2.2
  | .nil, fp, vm, parent, self, hp, hs => by
    simp only [descendBody]
    exact ⟨hp, hs⟩
  | .cons hd tl, fp, vm, parent, self, hp, hs => by
    simp only [descendBody]
    have hv := visitTree_good hd fp vm parent self hp hs
    exact descendBody_good tl fp (visitTree fp vm parent self hd).1
      (visitTree fp vm parent self hd).2.1 (visitTree fp vm parent self hd).2.2 hv.1 hv.2
end

mutual
theorem visitTree_module_inert :
    ∀ (n : PyNode) (fp : String) (vm : VisitorManagerState) (parent self : VState),
    self.block_type = BlockType.MODULE →
    visitTree fp vm parent self n = (vm, parent, self)
  | .classDef name body, fp, vm, parent, self, hbt => by
    simp only [visitTree, hbt, descendBody_module_inert body fp vm parent self hbt]
  | .functionDef name body, fp, vm, parent, self, hbt => by
    simp only [visitTree, hbt, descendBody_module_inert body fp vm parent self hbt]
  | .simpleStmt, fp, vm, parent, self, hbt => by
    simp only [visitTree]

theorem descendBody_module_inert :
    ∀ (b : PyBody) (fp : String) (vm : VisitorManagerState) (parent self : VState),
    self.block_type = BlockType.MODULE →
    descendBody fp vm parent self b = (vm, parent, self)
  | .nil, fp, vm, parent, self, hbt => by
    simp only [descendBody]
  | .cons hd tl, fp, vm, parent, self, hbt => by
    simp only [descendBody, visitTree_module_inert hd fp vm parent self hbt,
      descendBody_module_inert tl fp vm parent self hbt]
end

theorem gtCount_append (a b : String) : gtCount (a ++ b) = gtCount a + gtCount b := by
  unfold gtCount
  rw [String.data_append, List.count_append]

theorem gtCount_eq_zero (s : String) (h : '>' ∉ s.data) : gtCount s = 0 :=
  List.count_eq_zero.mpr h

theorem gtCount_classId (p n : String) (hn : '>' ∉ n.data) :
    gtCount (ClassIDGenerationStrategy.generate_id p n) = gtCount p + 1 := by
  show gtCount (p ++ "__>__CLASS_" ++ n) = _
  rw [gtCount_append, gtCount_append, gtCount_eq_zero n hn]
  have h1 : gtCount "__>__CLASS_" = 1 := rfl
  rw [h1]

theorem gtCount_functionId (p n : String) (hn : '>' ∉ n.data) :
    gtCount (FunctionIDGenerationStrategy.generate_id p n) = gtCount p + 1 := by
  show gtCount (p ++ "__>__FUNCTION_" ++ n) = _
  rw [gtCount_append, gtCount_append, gtCount_eq_zero n hn]
  have h1 : gtCount "__>__FUNCTION_" = 1 := rfl
  rw [h1]

theorem gtCount_moduleId (fp : String) :
    gtCount (ModuleIDGenerationStrategy.generate_id fp) = gtCount fp + 1 := by
  show gtCount (fp ++ "__>__MODULE") = _
  rw [gtCount_append]
  have h1 : gtCount "__>__MODULE" = 1 := rfl
  rw [h1]

theorem ne_empty_of_gtCount_pos (s : String) (h : 0 < gtCount s) : s ≠ "" := by
  intro he
  subst he
  exact absurd h (by decide)

theorem keyExt_gtCount (sid k : String) (h : KeyExt sid k) : gtCount sid + 1 ≤ gtCount k := by
  obtain ⟨r, hk⟩ := h
  rw [hk, gtCount_append, gtCount_append]
  have h1 : gtCount "__>__" = 1 := rfl
  rw [h1]
  omega

theorem manualLoopBoth_inv :
    ∀ (b : PyBody) (fp mid : String) (vm : VisitorManagerState) (self : VState),
    directNamesFree b = true →
    0 < gtCount mid →
    LoopInv fp mid vm self →
    LoopInv fp mid (manualLoopBoth fp vm self b).1 (manualLoopBoth fp vm self b).2 ∧
    SameMeta self (manualLoopBoth fp vm self b).2 ∧
    ((manualLoopBoth fp vm self b).2).builder_children = self.builder_children ∧
    (∀ j ∈ self.children_ids_set, j ∈ ((manualLoopBoth fp vm self b).2).children_ids_set) ∧
    (∀ i ∈ directChildrenIds mid b, i ∈ ((manualLoopBoth fp vm self b).2).children_ids_set)
  | .nil, fp, mid, vm, self, hfree, hmid, hinv =>
    ⟨hinv, sameMeta_rfl self, rfl, fun j hj => hj,
      fun i hi => absurd hi (List.not_mem_nil i)⟩
  | .cons child rest, fp, mid, vm, self, hfree, hmid, hinv => by
    obtain ⟨hid, hB, hmap, hnd⟩ := hinv
    cases child with
    | simpleStmt =>
      have ih := manualLoopBoth_inv rest fp mid vm self hfree hmid ⟨hid, hB, hmap, hnd⟩
      simp only [manualLoopBoth]
      exact ih
    | classDef cname cbody =>
      simp only [directNamesFree, Bool.and_eq_true, decide_eq_true_eq] at hfree
      have hcidc : gtCount (ClassIDGenerationStrategy.generate_id self.model_id cname) =
          gtCount mid + 1 := by
        rw [hid]
        exact gtCount_classId mid cname hfree.1
      simp only [manualLoopBoth]
      by_cases hr : (VisitorManager.has_been_processed vm fp
          (ClassIDGenerationStrategy.generate_id self.model_id cname)).1
      · rw [if_pos hr]
        have hmem : ClassIDGenerationStrategy.generate_id self.model_id cname ∈
            vmScope vm fp := by
          rw [has_been_processed_fst] at hr
          exact of_decide_eq_true hr
        have hincis : ClassIDGenerationStrategy.generate_id self.model_id cname ∈
            self.children_ids_set := by
          rcases (hB _ (le_of_eq hcidc)).mp hmem with h | h
          · exact h
          · exfalso
            rw [h] at hcidc
            omega
        have hscope : vmScope (VisitorManager.has_been_processed vm fp
            (ClassIDGenerationStrategy.generate_id self.model_id cname)).2 fp =
            vmScope vm fp := by
          rw [vmScope_has_been_processed_self, if_pos hmem]
        have hinv2 : LoopInv fp mid (VisitorManager.has_been_processed vm fp
            (ClassIDGenerationStrategy.generate_id self.model_id cname)).2 self :=
          ⟨hid, fun i hile => by rw [hscope]; exact hB i hile, hmap, hnd⟩
        have ih := manualLoopBoth_inv rest fp mid (VisitorManager.has_been_processed vm fp
            (ClassIDGenerationStrategy.generate_id self.model_id cname)).2 self
          hfree.2 hmid hinv2
        refine ⟨ih.1, ih.2.1, ih.2.2.1, ih.2.2.2.1, ?_⟩
        intro i hi
        simp only [directChildrenIds] at hi
        rcases List.mem_cons.mp hi with h | h
        · subst h
          refine ih.2.2.2.1 _ ?_
          rw [hid] at hincis
          exact hincis
        · exact ih.2.2.2.2 i h
      · rw [if_neg hr]
        have hnmem : ClassIDGenerationStrategy.generate_id self.model_id cname ∉
            vmScope vm fp := by
          rw [has_been_processed_fst] at hr
          exact fun hm => hr (decide_eq_true hm)
        have hncis : ClassIDGenerationStrategy.generate_id self.model_id cname ∉
            self.children_ids_set :=
          fun hc => hnmem ((hB _ (le_of_eq hcidc)).mpr (Or.inl hc))
        have hcidne : ClassIDGenerationStrategy.generate_id self.model_id cname ≠ "" :=
          ne_empty_of_gtCount_pos _ (by rw [hcidc]; omega)
        have hps : ParentStep (ClassIDGenerationStrategy.generate_id self.model_id cname)
            (some self.model_id) BlockType.CLASS self
            ((visitTree fp (VisitorManager.has_been_processed vm fp
              (ClassIDGenerationStrategy.generate_id self.model_id cname)).2 self
              (initVisitor self.model_id
                (ClassIDGenerationStrategy.generate_id self.model_id cname)
                BlockType.CLASS) (.classDef cname cbody)).2.1) :=
          visitTree_attach (.classDef cname cbody) fp
            (VisitorManager.has_been_processed vm fp
              (ClassIDGenerationStrategy.generate_id self.model_id cname)).2 self
            (initVisitor self.model_id
              (ClassIDGenerationStrategy.generate_id self.model_id cname) BlockType.CLASS)
            hcidne
        have hcomp : ClassIDGenerationStrategy.generate_id self.model_id cname ∈
            (((visitTree fp (VisitorManager.has_been_processed vm fp
              (ClassIDGenerationStrategy.generate_id self.model_id cname)).2 self
              (initVisitor self.model_id
                (ClassIDGenerationStrategy.generate_id self.model_id cname)
                BlockType.CLASS) (.classDef cname cbody)).2.1)).children_ids_set :=
          visitTree_attach_complete (.classDef cname cbody) fp
            (VisitorManager.has_been_processed vm fp
              (ClassIDGenerationStrategy.generate_id self.model_id cname)).2 self
            (initVisitor self.model_id
              (ClassIDGenerationStrategy.generate_id self.model_id cname) BlockType.CLASS)
            rfl hcidne
        have hkeys := visitTree_keys (.classDef cname cbody) fp
          (VisitorManager.has_been_processed vm fp
            (ClassIDGenerationStrategy.generate_id self.model_id cname)).2 self
          (initVisitor self.model_id
            (ClassIDGenerationStrategy.generate_id self.model_id cname) BlockType.CLASS)
        rcases hps with heq | ⟨hnc, ch, heq⟩
        · exfalso
          rw [heq] at hcomp
          exact hncis hcomp
        · have hcis2 : (((visitTree fp (VisitorManager.has_been_processed vm fp
              (ClassIDGenerationStrategy.generate_id self.model_id cname)).2 self
              (initVisitor self.model_id
                (ClassIDGenerationStrategy.generate_id self.model_id cname)
                BlockType.CLASS) (.classDef cname cbody)).2.1)).children_ids_set =
              self.children_ids_set ++
                [ClassIDGenerationStrategy.generate_id self.model_id cname] := by
            rw [heq]
            exact addChildToParent_cis self _ hcidne
          have hch2 : (((visitTree fp (VisitorManager.has_been_processed vm fp
              (ClassIDGenerationStrategy.generate_id self.model_id cname)).2 self
              (initVisitor self.model_id
                (ClassIDGenerationStrategy.generate_id self.model_id cname)
                BlockType.CLASS) (.classDef cname cbody)).2.1)).children =
              self.children ++ [Model.mk
                (ClassIDGenerationStrategy.generate_id self.model_id cname)
                (some self.model_id) BlockType.CLASS ch] := by
            rw [heq]
            rfl
          have hmeta : SameMeta self ((visitTree fp (VisitorManager.has_been_processed vm fp
              (ClassIDGenerationStrategy.generate_id self.model_id cname)).2 self
              (initVisitor self.model_id
                (ClassIDGenerationStrategy.generate_id self.model_id cname)
                BlockType.CLASS) (.classDef cname cbody)).2.1) := by
            rw [heq]
            exact addChildToParent_meta self _
          have hbuild : (((visitTree fp (VisitorManager.has_been_processed vm fp
              (ClassIDGenerationStrategy.generate_id self.model_id cname)).2 self
              (initVisitor self.model_id
                (ClassIDGenerationStrategy.generate_id self.model_id cname)
                BlockType.CLASS) (.classDef cname cbody)).2.1)).builder_children =
              self.builder_children := by
            rw [heq]
            rfl
          have hcidscope : ClassIDGenerationStrategy.generate_id self.model_id cname ∈
              vmScope (VisitorManager.has_been_processed vm fp
                (ClassIDGenerationStrategy.generate_id self.model_id cname)).2 fp := by
            rw [vmScope_has_been_processed_self, if_neg hnmem]
            exact List.mem_append_right _ (List.mem_singleton.mpr rfl)
          have hinv2 : LoopInv fp mid
              (visitTree fp (VisitorManager.has_been_processed vm fp
                (ClassIDGenerationStrategy.generate_id self.model_id cname)).2 self
                (initVisitor self.model_id
                  (ClassIDGenerationStrategy.generate_id self.model_id cname)
                  BlockType.CLASS) (.classDef cname cbody)).1
              ((visitTree fp (VisitorManager.has_been_processed vm fp
                (ClassIDGenerationStrategy.generate_id self.model_id cname)).2 self
                (initVisitor self.model_id
                  (ClassIDGenerationStrategy.generate_id self.model_id cname)
                  BlockType.CLASS) (.classDef cname cbody)).2.1) := by
            refine ⟨hmeta.1.trans hid, ?_, ?_, ?_⟩
            · intro i hile
              constructor
              · intro hm
                rcases hkeys.2 i hm with h | h
                · rcases mem_vmScope_has_been_processed_elim vm fp _ i h with h2 | h2
                  · rcases (hB i hile).mp h2 with h3 | h3
                    · rw [hcis2]
                      exact Or.inl (List.mem_append_left _ h3)
                    · exact Or.inr h3
                  · rw [hcis2, h2]
                    exact Or.inl (List.mem_append_right _ (List.mem_singleton.mpr rfl))
                · exfalso
                  have hke : KeyExt (ClassIDGenerationStrategy.generate_id self.model_id cname)
                      i := h
                  have := keyExt_gtCount _ i hke
                  rw [hcidc] at this
                  omega
              · intro hm
                rcases hm with hm | hm
                · rw [hcis2] at hm
                  rcases List.mem_append.mp hm with h | h
                  · exact hkeys.1 i (mem_vmScope_has_been_processed vm fp i fp _
                      ((hB i hile).mpr (Or.inl h)))
                  · rw [List.mem_singleton.mp h]
                    exact hkeys.1 _ hcidscope
                · subst hm
                  exact hkeys.1 i (mem_vmScope_has_been_processed vm fp i fp _
                    ((hB i hile).mpr (Or.inr rfl)))
            · rw [hch2, hcis2, List.map_append, hmap]
              rfl
            · rw [hcis2]
              refine hnd.append (List.nodup_singleton _) ?_
              intro a ha hb
              exact hncis (List.mem_singleton.mp hb ▸ ha)
          have ih := manualLoopBoth_inv rest fp mid
            (visitTree fp (VisitorManager.has_been_processed vm fp
              (ClassIDGenerationStrategy.generate_id self.model_id cname)).2 self
              (initVisitor self.model_id
                (ClassIDGenerationStrategy.generate_id self.model_id cname)
                BlockType.CLASS) (.classDef cname cbody)).1
            ((visitTree fp (VisitorManager.has_been_processed vm fp
              (ClassIDGenerationStrategy.generate_id self.model_id cname)).2 self
              (initVisitor self.model_id
                (ClassIDGenerationStrategy.generate_id self.model_id cname)
                BlockType.CLASS) (.classDef cname cbody)).2.1)
            hfree.2 hmid hinv2
          refine ⟨ih.1, sameMeta_trans hmeta ih.2.1, ih.2.2.1.trans hbuild, ?_, ?_⟩
          · intro j hj
            refine ih.2.2.2.1 j ?_
            rw [hcis2]
            exact List.mem_append_left _ hj
          · intro i hi
            simp only [directChildrenIds] at hi
            rcases List.mem_cons.mp hi with h | h
            · subst h
              refine ih.2.2.2.1 _ ?_
              rw [hcis2, hid]
              exact List.mem_append_right _ (List.mem_singleton.mpr rfl)
            · exact ih.2.2.2.2 i h
    | functionDef cname cbody =>
      simp only [directNamesFree, Bool.and_eq_true, decide_eq_true_eq] at hfree
      have hcidc : gtCount (FunctionIDGenerationStrategy.generate_id self.model_id cname) =
          gtCount mid + 1 := by
        rw [hid]
        exact gtCount_functionId mid cname hfree.1
      simp only [manualLoopBoth]
      by_cases hr : (VisitorManager.has_been_processed vm fp
          (FunctionIDGenerationStrategy.generate_id self.model_id cname)).1
      · rw [if_pos hr]
        have hmem : FunctionIDGenerationStrategy.generate_id self.model_id cname ∈
            vmScope vm fp := by
          rw [has_been_processed_fst] at hr
          exact of_decide_eq_true hr
        have hincis : FunctionIDGenerationStrategy.generate_id self.model_id cname ∈
            self.children_ids_set := by
          rcases (hB _ (le_of_eq hcidc)).mp hmem with h | h
          · exact h
          · exfalso
            rw [h] at hcidc
            omega
        have hscope : vmScope (VisitorManager.has_been_processed vm fp
            (FunctionIDGenerationStrategy.generate_id self.model_id cname)).2 fp =
            vmScope vm fp := by
          rw [vmScope_has_been_processed_self, if_pos hmem]
        have hinv2 : LoopInv fp mid (VisitorManager.has_been_processed vm fp
            (FunctionIDGenerationStrategy.generate_id self.model_id cname)).2 self :=
          ⟨hid, fun i hile => by rw [hscope]; exact hB i hile, hmap, hnd⟩
        have ih := manualLoopBoth_inv rest fp mid (VisitorManager.has_been_processed vm fp
            (FunctionIDGenerationStrategy.generate_id self.model_id cname)).2 self
          hfree.2 hmid hinv2
        refine ⟨ih.1, ih.2.1, ih.2.2.1, ih.2.2.2.1, ?_⟩
        intro i hi
        simp only [directChildrenIds] at hi
        rcases List.mem_cons.mp hi with h | h
        · subst h
          refine ih.2.2.2.1 _ ?_
          rw [hid] at hincis
          exact hincis
        · exact ih.2.2.2.2 i h
      · rw [if_neg hr]
        have hnmem : FunctionIDGenerationStrategy.generate_id self.model_id cname ∉
            vmScope vm fp := by
          rw [has_been_processed_fst] at hr
          exact fun hm => hr (decide_eq_true hm)
        have hncis : FunctionIDGenerationStrategy.generate_id self.model_id cname ∉
            self.children_ids_set :=
          fun hc => hnmem ((hB _ (le_of_eq hcidc)).mpr (Or.inl hc))
        have hcidne : FunctionIDGenerationStrategy.generate_id self.model_id cname ≠ "" :=
          ne_empty_of_gtCount_pos _ (by rw [hcidc]; omega)
        have hps : ParentStep (FunctionIDGenerationStrategy.generate_id self.model_id cname)
            (some self.model_id) BlockType.FUNCTION self
            ((visitTree fp (VisitorManager.has_been_processed vm fp
              (FunctionIDGenerationStrategy.generate_id self.model_id cname)).2 self
              (initVisitor self.model_id
                (FunctionIDGenerationStrategy.generate_id self.model_id cname)
                BlockType.FUNCTION) (.functionDef cname cbody)).2.1) :=
          visitTree_attach (.functionDef cname cbody) fp
            (VisitorManager.has_been_processed vm fp
              (FunctionIDGenerationStrategy.generate_id self.model_id cname)).2 self
            (initVisitor self.model_id
              (FunctionIDGenerationStrategy.generate_id self.model_id cname)
              BlockType.FUNCTION) hcidne
        have hcomp : FunctionIDGenerationStrategy.generate_id self.model_id cname ∈
            (((visitTree fp (VisitorManager.has_been_processed vm fp
              (FunctionIDGenerationStrategy.generate_id self.model_id cname)).2 self
              (initVisitor self.model_id
                (FunctionIDGenerationStrategy.generate_id self.model_id cname)
                BlockType.FUNCTION) (.functionDef cname cbody)).2.1)).children_ids_set :=
          visitTree_attach_complete (.functionDef cname cbody) fp
            (VisitorManager.has_been_processed vm fp
              (FunctionIDGenerationStrategy.generate_id self.model_id cname)).2 self
            (initVisitor self.model_id
              (FunctionIDGenerationStrategy.generate_id self.model_id cname)
              BlockType.FUNCTION) rfl hcidne
        have hkeys := visitTree_keys (.functionDef cname cbody) fp
          (VisitorManager.has_been_processed vm fp
            (FunctionIDGenerationStrategy.generate_id self.model_id cname)).2 self
          (initVisitor self.model_id
            (FunctionIDGenerationStrategy.generate_id self.model_id cname)
            BlockType.FUNCTION)
        rcases hps with heq | ⟨hnc, ch, heq⟩
        · exfalso
          rw [heq] at hcomp
          exact hncis hcomp
        · have hcis2 : (((visitTree fp (VisitorManager.has_been_processed vm fp
              (FunctionIDGenerationStrategy.generate_id self.model_id cname)).2 self
              (initVisitor self.model_id
                (FunctionIDGenerationStrategy.generate_id self.model_id cname)
                BlockType.FUNCTION) (.functionDef cname cbody)).2.1)).children_ids_set =
              self.children_ids_set ++
                [FunctionIDGenerationStrategy.generate_id self.model_id cname] := by
            rw [heq]
            exact addChildToParent_cis self _ hcidne
          have hch2 : (((visitTree fp (VisitorManager.has_been_processed vm fp
              (FunctionIDGenerationStrategy.generate_id self.model_id cname)).2 self
              (initVisitor self.model_id
                (FunctionIDGenerationStrategy.generate_id self.model_id cname)
                BlockType.FUNCTION) (.functionDef cname cbody)).2.1)).children =
              self.children ++ [Model.mk
                (FunctionIDGenerationStrategy.generate_id self.model_id cname)
                (some self.model_id) BlockType.FUNCTION ch] := by
            rw [heq]
            rfl
          have hmeta : SameMeta self ((visitTree fp (VisitorManager.has_been_processed vm fp
              (FunctionIDGenerationStrategy.generate_id self.model_id cname)).2 self
              (initVisitor self.model_id
                (FunctionIDGenerationStrategy.generate_id self.model_id cname)
                BlockType.FUNCTION) (.functionDef cname cbody)).2.1) := by
            rw [heq]
            exact addChildToParent_meta self _
          have hbuild : (((visitTree fp (VisitorManager.has_been_processed vm fp
              (FunctionIDGenerationStrategy.generate_id self.model_id cname)).2 self
              (initVisitor self.model_id
                (FunctionIDGenerationStrategy.generate_id self.model_id cname)
                BlockType.FUNCTION) (.functionDef cname cbody)).2.1)).builder_children =
              self.builder_children := by
            rw [heq]
            rfl
          have hcidscope : FunctionIDGenerationStrategy.generate_id self.model_id cname ∈
              vmScope (VisitorManager.has_been_processed vm fp
                (FunctionIDGenerationStrategy.generate_id self.model_id cname)).2 fp := by
            rw [vmScope_has_been_processed_self, if_neg hnmem]
            exact List.mem_append_right _ (List.mem_singleton.mpr rfl)
          have hinv2 : LoopInv fp mid
              (visitTree fp (VisitorManager.has_been_processed vm fp
                (FunctionIDGenerationStrategy.generate_id self.model_id cname)).2 self
                (initVisitor self.model_id
                  (FunctionIDGenerationStrategy.generate_id self.model_id cname)
                  BlockType.FUNCTION) (.functionDef cname cbody)).1
              ((visitTree fp (VisitorManager.has_been_processed vm fp
                (FunctionIDGenerationStrategy.generate_id self.model_id cname)).2 self
                (initVisitor self.model_id
                  (FunctionIDGenerationStrategy.generate_id self.model_id cname)
                  BlockType.FUNCTION) (.functionDef cname cbody)).2.1) := by
            refine ⟨hmeta.1.trans hid, ?_, ?_, ?_⟩
            · intro i hile
              constructor
              · intro hm
                rcases hkeys.2 i hm with h | h
                · rcases mem_vmScope_has_been_processed_elim vm fp _ i h with h2 | h2
                  · rcases (hB i hile).mp h2 with h3 | h3
                    · rw [hcis2]
                      exact Or.inl (List.mem_append_left _ h3)
                    · exact Or.inr h3
                  · rw [hcis2, h2]
                    exact Or.inl (List.mem_append_right _ (List.mem_singleton.mpr rfl))
                · exfalso
                  have hke : KeyExt
                      (FunctionIDGenerationStrategy.generate_id self.model_id cname) i := h
                  have := keyExt_gtCount _ i hke
                  rw [hcidc] at this
                  omega
              · intro hm
                rcases hm with hm | hm
                · rw [hcis2] at hm
                  rcases List.mem_append.mp hm with h | h
                  · exact hkeys.1 i (mem_vmScope_has_been_processed vm fp i fp _
                      ((hB i hile).mpr (Or.inl h)))
                  · rw [List.mem_singleton.mp h]
                    exact hkeys.1 _ hcidscope
                · subst hm
                  exact hkeys.1 i (mem_vmScope_has_been_processed vm fp i fp _
                    ((hB i hile).mpr (Or.inr rfl)))
            · rw [hch2, hcis2, List.map_append, hmap]
              rfl
            · rw [hcis2]
              refine hnd.append (List.nodup_singleton _) ?_
              intro a ha hb
              exact hncis (List.mem_singleton.mp hb ▸ ha)
          have ih := manualLoopBoth_inv rest fp mid
            (visitTree fp (VisitorManager.has_been_processed vm fp
              (FunctionIDGenerationStrategy.generate_id self.model_id cname)).2 self
              (initVisitor self.model_id
                (FunctionIDGenerationStrategy.generate_id self.model_id cname)
                BlockType.FUNCTION) (.functionDef cname cbody)).1
            ((visitTree fp (VisitorManager.has_been_processed vm fp
              (FunctionIDGenerationStrategy.generate_id self.model_id cname)).2 self
              (initVisitor self.model_id
                (FunctionIDGenerationStrategy.generate_id self.model_id cname)
                BlockType.FUNCTION) (.functionDef cname cbody)).2.1)
            hfree.2 hmid hinv2
          refine ⟨ih.1, sameMeta_trans hmeta ih.2.1, ih.2.2.1.trans hbuild, ?_, ?_⟩
          · intro j hj
            refine ih.2.2.2.1 j ?_
            rw [hcis2]
            exact List.mem_append_left _ hj
          · intro i hi
            simp only [directChildrenIds] at hi
            rcases List.mem_cons.mp hi with h | h
            · subst h
              refine ih.2.2.2.1 _ ?_
              rw [hcis2, hid]
              exact List.mem_append_right _ (List.mem_singleton.mpr rfl)
            · exact ih.2.2.2.2 i h

/-- C4: for every module source tree, the model the parser facade returns
has block kind MODULE and a null parent_id, and it is the only such block:
every block below the root carries a non-null parent id. -/
theorem parse_module_contract (fp : String) (body : PyBody) :
    (PythonParser.parse fp body).block_type = BlockType.MODULE ∧
    (PythonParser.parse fp body).parent_id = none ∧
    ∀ m ∈ (PythonParser.parse fp body).children, Model.Parented m := by
  have hr : (VisitorManager.has_been_processed (VisitorManagerState.mk []) fp
      (ModuleIDGenerationStrategy.generate_id fp)).1 = false := by
    rw [has_been_processed_fst]
    simp [vmScope, lookupScope]
  have hm := manualLoopBoth_meta body fp
    (VisitorManager.has_been_processed (VisitorManagerState.mk []) fp
      (ModuleIDGenerationStrategy.generate_id fp)).2
    ⟨ModuleIDGenerationStrategy.generate_id fp, none, BlockType.MODULE, [], [], []⟩
  have hgood := manualLoopBoth_good body fp
    (VisitorManager.has_been_processed (VisitorManagerState.mk []) fp
      (ModuleIDGenerationStrategy.generate_id fp)).2
    ⟨ModuleIDGenerationStrategy.generate_id fp, none, BlockType.MODULE, [], [], []⟩
    ⟨fun h => by rcases h with h | h <;> simp at h,
      fun m hm => absurd hm (List.not_mem_nil m),
      fun m hm => absurd hm (List.not_mem_nil m)⟩
  have hinert := descendBody_module_inert body fp
    (manualLoopBoth fp (VisitorManager.has_been_processed (VisitorManagerState.mk []) fp
      (ModuleIDGenerationStrategy.generate_id fp)).2
      ⟨ModuleIDGenerationStrategy.generate_id fp, none, BlockType.MODULE, [], [], []⟩ body).1
    ⟨"", none, BlockType.MODULE, [], [], []⟩
    (manualLoopBoth fp (VisitorManager.has_been_processed (VisitorManagerState.mk []) fp
      (ModuleIDGenerationStrategy.generate_id fp)).2
      ⟨ModuleIDGenerationStrategy.generate_id fp, none, BlockType.MODULE, [], [], []⟩ body).2
    hm.2.2
  simp only [PythonParser.parse, runModuleTraversal, hr, Bool.false_eq_true, if_false,
    hinert, Model.block_type, Model.parent_id, Model.children]
  refine ⟨hm.2.2, hm.2.1, ?_⟩
  intro m hmem
  rcases List.mem_append.mp hmem with h | h
  · exact hgood.2.2 m h
  · exact hgood.2.1 m h

theorem countMatchingId_nodup (l : List Model) (i : String)
    (hnd : (l.map Model.id).Nodup) (hi : i ∈ l.map Model.id) :
    countMatchingId l i = 1 := by
  induction l with
  | nil => exact absurd hi (by simp)
  | cons m t ih =>
    rw [List.map_cons, List.nodup_cons] at hnd
    rw [List.map_cons, List.mem_cons] at hi
    unfold countMatchingId
    rw [List.filter_cons]
    by_cases h : m.id = i
    · rw [if_pos (decide_eq_true h)]
      have ht0 : List.filter (fun x => decide (Model.id x = i)) t = [] := by
        rw [List.filter_eq_nil_iff]
        intro a ha
        simp only [decide_eq_true_eq]
        intro hae
        refine hnd.1 ?_
        rw [h, ← hae]
        exact List.mem_map_of_mem Model.id ha
      rw [ht0]
      rfl
    · rw [if_neg (fun hc => h (of_decide_eq_true hc))]
      rcases hi with hie | hit
      · exact absurd hie.symm h
      · exact ih hnd.2 hit

/-- C1: counterexample to the claimed traversal/dedup invariant.  First, a
class nested directly inside a function is dropped entirely: for the
module containing def f with a nested class C, the finalized model of f
has zero (not exactly one) children whose id is derived from (f.id,
CLASS, C) — FunctionDefVisitor only creates child visitors for nested
FunctionDefs, and no other visitor handles the class.  Second, the
traversal is not idempotent: running it twice over the same tree with a
single visitor manager doubles the module's child count (leave_Module
hands the visitor's collected children to the builder once per run),
while one run yields count one. -/
theorem traversal_dedup_counterexample :
    (childById (PythonParser.parse "m"
        (PyBody.cons (PyNode.functionDef "f"
          (PyBody.cons (PyNode.classDef "C" PyBody.nil) PyBody.nil)) PyBody.nil)).children
      (FunctionIDGenerationStrategy.generate_id
        (ModuleIDGenerationStrategy.generate_id "m") "f")).map
      (fun m => countMatchingId m.children
        (ClassIDGenerationStrategy.generate_id
          (FunctionIDGenerationStrategy.generate_id
            (ModuleIDGenerationStrategy.generate_id "m") "f") "C")) = some 0 ∧
    countMatchingId (PythonParser.parseTwice "m"
        (PyBody.cons (PyNode.classDef "A" PyBody.nil) PyBody.nil)).children
      (ClassIDGenerationStrategy.generate_id
        (ModuleIDGenerationStrategy.generate_id "m") "A") = 2 ∧
    countMatchingId (PythonParser.parse "m"
        (PyBody.cons (PyNode.classDef "A" PyBody.nil) PyBody.nil)).children
      (ClassIDGenerationStrategy.generate_id
        (ModuleIDGenerationStrategy.generate_id "m") "A") = 1 :=
  ⟨rfl, rfl, rfl⟩

/-- C1 (amended): at the module level the dedup guard does hold for a
single traversal: for every module body whose direct class/function names
are free of the separator character >, every direct child id derived from
(module id, kind, name) occurs exactly once among the children of the
parsed module model, however often a name repeats in the body. -/
theorem traversal_dedup_amended (fp : String) (body : PyBody)
    (hfree : directNamesFree body = true) :
    ∀ i ∈ directChildrenIds (ModuleIDGenerationStrategy.generate_id fp) body,
      countMatchingId (PythonParser.parse fp body).children i = 1 := by
  intro i hi
  have hr : (VisitorManager.has_been_processed (VisitorManagerState.mk []) fp
      (ModuleIDGenerationStrategy.generate_id fp)).1 = false := by
    rw [has_been_processed_fst]
    simp [vmScope, lookupScope]
  have hscope1 : vmScope (VisitorManager.has_been_processed (VisitorManagerState.mk []) fp
      (ModuleIDGenerationStrategy.generate_id fp)).2 fp =
      [ModuleIDGenerationStrategy.generate_id fp] := by
    have h0 : vmScope (VisitorManagerState.mk []) fp = [] := by
      simp [vmScope, lookupScope]
    rw [vmScope_has_been_processed_self, h0]
    simp
  have hinv0 : LoopInv fp (ModuleIDGenerationStrategy.generate_id fp)
      (VisitorManager.has_been_processed (VisitorManagerState.mk []) fp
        (ModuleIDGenerationStrategy.generate_id fp)).2
      ⟨ModuleIDGenerationStrategy.generate_id fp, none, BlockType.MODULE, [], [], []⟩ := by
    refine ⟨rfl, ?_, rfl, List.nodup_nil⟩
    intro j hj
    rw [hscope1]
    constructor
    · intro hjm
      exact Or.inr (List.mem_singleton.mp hjm)
    · intro hjm
      rcases hjm with hjm | hjm
      · exact absurd hjm (List.not_mem_nil j)
      · rw [hjm]
        exact List.mem_singleton.mpr rfl
  have hmid : 0 < gtCount (ModuleIDGenerationStrategy.generate_id fp) := by
    rw [gtCount_moduleId]
    omega
  have hloop := manualLoopBoth_inv body fp (ModuleIDGenerationStrategy.generate_id fp)
    (VisitorManager.has_been_processed (VisitorManagerState.mk []) fp
      (ModuleIDGenerationStrategy.generate_id fp)).2
    ⟨ModuleIDGenerationStrategy.generate_id fp, none, BlockType.MODULE, [], [], []⟩
    hfree hmid hinv0
  have hinert := descendBody_module_inert body fp
    (manualLoopBoth fp (VisitorManager.has_been_processed (VisitorManagerState.mk []) fp
      (ModuleIDGenerationStrategy.generate_id fp)).2
      ⟨ModuleIDGenerationStrategy.generate_id fp, none, BlockType.MODULE, [], [], []⟩ body).1
    ⟨"", none, BlockType.MODULE, [], [], []⟩
    (manualLoopBoth fp (VisitorManager.has_been_processed (VisitorManagerState.mk []) fp
      (ModuleIDGenerationStrategy.generate_id fp)).2
      ⟨ModuleIDGenerationStrategy.generate_id fp, none, BlockType.MODULE, [], [], []⟩ body).2
    hloop.2.1.2.2
  have hb0 : ((manualLoopBoth fp
      (VisitorManager.has_been_processed (VisitorManagerState.mk []) fp
        (ModuleIDGenerationStrategy.generate_id fp)).2
      ⟨ModuleIDGenerationStrategy.generate_id fp, none, BlockType.MODULE, [], [], []⟩
      body).2).builder_children = [] := hloop.2.2.1
  simp only [PythonParser.parse, runModuleTraversal, hr, Bool.false_eq_true, if_false,
    hinert, Model.children]
  rw [hb0, List.nil_append]
  apply countMatchingId_nodup
  · rw [hloop.1.2.2.1]
    exact hloop.1.2.2.2
  · rw [hloop.1.2.2.1]
    exact hloop.2.2.2.2 i hi

/-- C1 (amended) at a concrete input: one class A at module level in
module m; its derived id occurs exactly once among the parsed module's
children. -/
theorem traversal_dedup_amended_witness :
    directNamesFree (PyBody.cons (PyNode.classDef "A" PyBody.nil) PyBody.nil) = true ∧
    ClassIDGenerationStrategy.generate_id
        (ModuleIDGenerationStrategy.generate_id "m") "A" ∈
      directChildrenIds (ModuleIDGenerationStrategy.generate_id "m")
        (PyBody.cons (PyNode.classDef "A" PyBody.nil) PyBody.nil) ∧
    countMatchingId (PythonParser.parse "m"
        (PyBody.cons (PyNode.classDef "A" PyBody.nil) PyBody.nil)).children
      (ClassIDGenerationStrategy.generate_id
        (ModuleIDGenerationStrategy.generate_id "m") "A") = 1 :=
  ⟨by decide, by decide,
    traversal_dedup_amended "m" (PyBody.cons (PyNode.classDef "A" PyBody.nil) PyBody.nil)
      (by decide) _ (by decide)⟩
